import Mathlib

/-!
Verification development for the rlox tree-walking interpreter
(crates `rlox`, `rlox_treewalk`, `astgen` of the repository).

Shallow embedding notes:
* Rust `f64` is modelled by `F64` below: a NaN value, the two infinities and
  finite values as rationals (the two IEEE zeros are collapsed into one; no
  claim distinguishes them).  Arithmetic on `F64` is total, mirroring IEEE
  behaviour on the cases the claims observe (NaN propagation, NaN comparisons
  being false); the numeric value of finite arithmetic is exact rational
  arithmetic, which agrees with `f64` on the small literals the claims use.
* `Rc<RefCell<...>>` graphs (environments, classes, instances) are modelled
  by a `Store` of arrays indexed by `Nat`; a pointer is an index.
* `HashMap` is modelled by an association list whose `insert` replaces an
  existing binding for an equal key, matching `HashMap::insert` semantics
  with respect to the `Eq` implementation of the key type.
* `rlox/src/lib.rs` declares modules `scanner` and `token` whose files are
  absent from the snapshot; `rlox_treewalk/src/scanner.rs` and
  `rlox_treewalk/src/token.rs` are the repository implementations embedded
  here (the `rlox` parser tests construct `Token { kind, lexeme, line }`
  values of exactly this shape).
-/

/-- Model of Rust `f64` (see header comment). `fin q` is a finite double of
exact value `q`; the two IEEE zeros are collapsed. -/
inductive F64 where
  | nan
  | inf
  | neginf
  | fin (q : ℚ)
deriving DecidableEq

/-- IEEE `==` on doubles: NaN compares unequal to everything (itself
included); finite values compare by numeric value. -/
def F64.ieeeEq : F64 → F64 → Bool
  | .inf, .inf => true
  | .neginf, .neginf => true
  | .fin q, .fin r => q == r
  | _, _ => false

/-- `f64::is_nan`. -/
def F64.is_nan : F64 → Bool
  | .nan => true
  | _ => false

/-- IEEE `<` (false whenever an operand is NaN). -/
def F64.ieeeLt : F64 → F64 → Bool
  | .fin q, .fin r => q < r
  | .fin _, .inf => true
  | .neginf, .fin _ => true
  | .neginf, .inf => true
  | _, _ => false

/-- IEEE `<=`. -/
def F64.ieeeLe (a b : F64) : Bool := F64.ieeeLt a b || F64.ieeeEq a b

/-- IEEE `+` on the modelled doubles. -/
def F64.add : F64 → F64 → F64
  | .fin q, .fin r => .fin (q + r)
  | .inf, .neginf => .nan
  | .neginf, .inf => .nan
  | .inf, _ => .inf
  | _, .inf => .inf
  | .neginf, _ => .neginf
  | _, .neginf => .neginf
  | _, _ => .nan

/-- IEEE `-` on the modelled doubles. -/
def F64.sub : F64 → F64 → F64
  | .fin q, .fin r => .fin (q - r)
  | .inf, .inf => .nan
  | .neginf, .neginf => .nan
  | .inf, _ => .inf
  | _, .inf => .neginf
  | .neginf, _ => .neginf
  | _, .neginf => .inf
  | _, _ => .nan

/-- IEEE `*` (sign handling of infinities is immaterial to every claim). -/
def F64.mul : F64 → F64 → F64
  | .fin q, .fin r => .fin (q * r)
  | _, _ => .nan

/-- IEEE `/` (division by zero and infinite operands are immaterial to every
claim; finite nonzero division is exact). -/
def F64.div : F64 → F64 → F64
  | .fin q, .fin r => if r = 0 then .nan else .fin (q / r)
  | _, _ => .nan

/-- `-x`. -/
def F64.neg : F64 → F64
  | .nan => .nan
  | .inf => .neginf
  | .neginf => .inf
  | .fin q => .fin (-q)

/-- `rlox_treewalk/src/token.rs` `TokenKind` (the `rlox` crate declares a
`token` module whose file is absent from the snapshot; the parser consumes
exactly these kinds). `HashableNumber` is inlined as the `F64` payload of
`number`. -/
inductive TokenKind where
  | leftParen | rightParen | leftBrace | rightBrace
  | comma | dot | minus | plus | semicolon | slash | star
  | bang | bangEqual
  | equal | equalEqual
  | greater | greaterEqual
  | less | lessEqual
  | identifier
  | string (s : String)
  | number (n : F64)
  | kAnd | kClass | kElse | kFalse | kFun | kFor | kIf | kNil | kOr
  | kPrint | kReturn | kSuper | kThis | kTrue | kVar | kWhile
  | endOfFile
deriving DecidableEq

/-- `Token { kind, lexeme, line }`.  The Rust derived `Eq`/`Hash` compare all
three fields structurally; `DecidableEq` here mirrors that.  (The only
divergence is `HashableNumber`: its Rust `Eq` is IEEE `==`, under which a NaN
token is unequal to itself; the scanner can only produce number tokens from
digit strings, never NaN, so no reachable token is affected.) -/
structure Token where
  kind : TokenKind
  lexeme : String
  line : Nat
deriving DecidableEq

/-- `value.rs` `Literal`. -/
inductive Literal where
  | bool (b : Bool)
  | nil
  | number (n : F64)
  | string (s : String)
deriving DecidableEq

/-- `error.rs` `ErrorKind` (the `Io` payload is dropped: no claim observes
an I/O failure and output is modelled as a pure list). -/
inductive ErrorKind where
  | lexical (line : Nat)
  | syntactic (token : Token)
  | staticA (token : Token)
  | runtime (token : Token)
  | unexpected
  | io
deriving DecidableEq

/-- `error.rs` `Error`. -/
structure Err where
  kind : ErrorKind
  message : String
deriving DecidableEq

/-- `Error::lexical`. -/
def Err.lexical (line : Nat) (message : String) : Err :=
  { kind := .lexical line, message }

/-- `Error::syntactic`. -/
def Err.syntactic (token : Token) (message : String) : Err :=
  { kind := .syntactic token, message }

/-- `Error::static_analyzer`. -/
def Err.static_analyzer (token : Token) (message : String) : Err :=
  { kind := .staticA token, message }

/-- `Error::runtime`. -/
def Err.runtime (token : Token) (message : String) : Err :=
  { kind := .runtime token, message }

/-- `Error::unexpected`. -/
def Err.unexpected : Err :=
  { kind := .unexpected, message := "Unexpected end of input." }

/-- `Error::loc` (`error.rs`). -/
def Err.loc (e : Err) : String :=
  match e.kind with
  | .syntactic token | .runtime token | .staticA token =>
      if token.kind = TokenKind.endOfFile then " at end"
      else " at " ++ token.lexeme
  | _ => ""

/-- `Display for Error` (`error.rs`): `[line N] Error<loc>: <message>`. -/
def Err.display (e : Err) : String :=
  let line : Nat :=
    match e.kind with
    | .unexpected => 0
    | .io => 0
    | .lexical l => l
    | .syntactic token | .runtime token | .staticA token => token.line
  "[line " ++ toString line ++ "] Error" ++ e.loc ++ ": " ++ e.message

/-- Association-list lookup (first match), modelling `HashMap::get` with
respect to key equality. -/
def alistGet {α : Type} [BEq α] {β : Type} (l : List (α × β)) (k : α) :
    Option β :=
  match l with
  | [] => none
  | (k2, v) :: rest => if k2 == k then some v else alistGet rest k

/-- Association-list insert-or-replace, modelling `HashMap::insert`. -/
def alistPut {α : Type} [BEq α] {β : Type} (l : List (α × β)) (k : α)
    (v : β) : List (α × β) :=
  match l with
  | [] => [(k, v)]
  | (k2, v2) :: rest =>
      if k2 == k then (k2, v) :: rest else (k2, v2) :: alistPut rest k v

/-- `HashMap::contains_key`. -/
def alistHas {α : Type} [BEq α] {β : Type} (l : List (α × β)) (k : α) :
    Bool :=
  (alistGet l k).isSome

/-- `expr.rs` `generate_ast!(Expr, ...)` (variants `Assign` through
`Variable`, each with the declared fields).  `this` and `super` variants:
`expr.rs` in this snapshot does not declare them, but `resolver.rs`
(`visit_this_expr`, `visit_super_expr` over `Expr::This`/`Expr::Super`),
`interpreter.rs` (`visit_this_expr`) and `value.rs` (`binding`) require
them, so they are included here — with the field layout the spec gives
(`This(keyword)`, `Super(keyword, method-name)`) — in order to embed those
visitors; the parser in this snapshot never constructs them. -/
inductive Expr where
  | assign (name : Token) (value : Expr)
  | binary (left : Expr) (op : Token) (right : Expr)
  | call (callee : Expr) (paren : Token) (arguments : List Expr)
  | get (object : Expr) (name : Token)
  | grouping (expression : Expr)
  | literal (value : Literal)
  | logical (left : Expr) (op : Token) (right : Expr)
  | set (object : Expr) (name : Token) (value : Expr)
  | unary (op : Token) (right : Expr)
  | var (name : Token)
  | thisE (keyword : Token)
  | superE (keyword : Token) (method : Token)

mutual

/-- Structural equality on `Expr`, mirroring the `PartialEq`/`Eq` derived by
`generate_ast!` (`astgen/src/lib.rs` derives `Clone, Debug, Eq, Hash,
PartialEq` on the AST enum and every node struct): all fields, tokens
included, compare structurally. -/
def Expr.beq : Expr → Expr → Bool
  | .assign n v, .assign n2 v2 => n == n2 && Expr.beq v v2
  | .binary l o r, .binary l2 o2 r2 =>
      Expr.beq l l2 && o == o2 && Expr.beq r r2
  | .call c p a, .call c2 p2 a2 =>
      Expr.beq c c2 && p == p2 && Expr.beqList a a2
  | .get o n, .get o2 n2 => Expr.beq o o2 && n == n2
  | .grouping e, .grouping e2 => Expr.beq e e2
  | .literal v, .literal v2 => v == v2
  | .logical l o r, .logical l2 o2 r2 =>
      Expr.beq l l2 && o == o2 && Expr.beq r r2
  | .set o n v, .set o2 n2 v2 =>
      Expr.beq o o2 && n == n2 && Expr.beq v v2
  | .unary o r, .unary o2 r2 => o == o2 && Expr.beq r r2
  | .var n, .var n2 => n == n2
  | .thisE k, .thisE k2 => k == k2
  | .superE k m, .superE k2 m2 => k == k2 && m == m2
  | _, _ => false

/-- Elementwise `Expr.beq` on lists (Rust `Vec<Expr>` equality). -/
def Expr.beqList : List Expr → List Expr → Bool
  | [], [] => true
  | x :: xs, y :: ys => Expr.beq x y && Expr.beqList xs ys
  | _, _ => false

end

instance : BEq Expr := ⟨Expr.beq⟩

mutual

/-- `stmt.rs` `generate_ast!(Stmt, ...)`. -/
inductive Stmt where
  | block (statements : List Stmt)
  | classS (name : Token) (superclass : Option Expr) (methods : List FunDecl)
  | expression (e : Expr)
  | print (e : Expr)
  | function (f : FunDecl)
  | ifS (condition : Expr) (thenBranch : Stmt) (elseBranch : Option Stmt)
  | returnS (keyword : Token) (value : Option Expr)
  | var (name : Token) (initializer : Option Expr)
  | whileS (condition : Expr) (body : Stmt)

/-- `stmt.rs` `Function { name, params, body }`. -/
inductive FunDecl where
  | mk (name : Token) (params : List Token) (body : List Stmt)

end

/-- Field accessor for `stmt::Function::name`. -/
def FunDecl.name : FunDecl → Token
  | .mk n _ _ => n

/-- Field accessor for `stmt::Function::params`. -/
def FunDecl.params : FunDecl → List Token
  | .mk _ p _ => p

/-- Field accessor for `stmt::Function::body`. -/
def FunDecl.body : FunDecl → List Stmt
  | .mk _ _ b => b

/-- `rlox_treewalk/src/scanner.rs` `Scanner { src, lexeme_buffer, line }`.
The `PeekMoreIterator<Chars>` is a char list; `peek` is the head,
`peek_next` the second element. -/
structure ScState where
  src : List Char
  lexemeBuffer : String
  line : Nat

/-- `scanner.rs` `ScannerResult`. -/
inductive ScannerResult where
  | nextR (r : Except Err TokenKind)
  | skip
  | noMoreTokens

/-- `Scanner::new`. -/
def scannerNew (source : String) : ScState :=
  { src := source.toList, lexemeBuffer := "", line := 1 }

/-- `scanner.rs` `KEYWORDS` (`phf_map!`). -/
def keywords (s : String) : Option TokenKind :=
  if s = "and" then some .kAnd
  else if s = "class" then some .kClass
  else if s = "else" then some .kElse
  else if s = "false" then some .kFalse
  else if s = "for" then some .kFor
  else if s = "fun" then some .kFun
  else if s = "if" then some .kIf
  else if s = "nil" then some .kNil
  else if s = "or" then some .kOr
  else if s = "print" then some .kPrint
  else if s = "return" then some .kReturn
  else if s = "super" then some .kSuper
  else if s = "this" then some .kThis
  else if s = "true" then some .kTrue
  else if s = "var" then some .kVar
  else if s = "while" then some .kWhile
  else none

/-- `scanner.rs` `can_start_identifier`. -/
def can_start_identifier (c : Char) : Bool :=
  (c.isUpper || c.isLower) || c = '_'

/-- `scanner.rs` `is_part_of_valid_identifier`. -/
def is_part_of_valid_identifier (c : Char) : Bool :=
  can_start_identifier c || c.isDigit

/-- `Scanner::does_next_match`: peek; on a match consume the char and push
it onto the lexeme buffer. -/
def does_next_match (c : Char) (st : ScState) : Bool × ScState :=
  match st.src with
  | next :: rest =>
      if c = next then
        (true, { st with src := rest, lexemeBuffer := st.lexemeBuffer.push next })
      else (false, st)
  | [] => (false, st)

/-- Char-level loop of `Scanner::advance_until_for_each`: consume (and
buffer) chars until `should_stop` holds for the peeked char (or the source
ends), returning the remaining source, the extended buffer and the count of
consumed newlines. -/
def advanceChars (should_stop : Char → Bool) :
    List Char → String → List Char × String × Nat
  | [], buf => ([], buf, 0)
  | next :: rest, buf =>
      if should_stop next then (next :: rest, buf, 0)
      else
        let (src2, buf2, n) := advanceChars should_stop rest (buf.push next)
        (src2, buf2, n + (if next = '\n' then 1 else 0))

/-- `Scanner::advance_until_for_each`.  The only per-char closure ever
passed either does nothing or counts newlines, so the closure is
specialised to a newline count (second component). -/
def advance_until_for_each (should_stop : Char → Bool) (st : ScState) :
    ScState × Nat :=
  let (src2, buf2, n) := advanceChars should_stop st.src st.lexemeBuffer
  ({ st with src := src2, lexemeBuffer := buf2 }, n)

/-- `Scanner::advance_until`. -/
def advance_until (should_stop : Char → Bool) (st : ScState) : ScState :=
  (advance_until_for_each should_stop st).1

/-- `Scanner::advance_until_match`. -/
def advance_until_match (c : Char) (st : ScState) : ScState :=
  advance_until (fun n => n = c) st

/-- `str::trim_matches('"')`: strip all leading and trailing quote chars. -/
def trimQuotes (s : String) : String :=
  let l := (s.toList.dropWhile (fun c => c = '"')).reverse
  String.mk ((l.dropWhile (fun c => c = '"')).reverse)

/-- Model of `str::parse::<f64>()` on the digit strings the scanner
produces (`[0-9]+` optionally followed by `.[0-9]+`): exact decimal
value.  Nonconforming strings parse to `none`. -/
def parseNumber (s : String) : Option ℚ :=
  let ds := s.toList.takeWhile Char.isDigit
  let rest := s.toList.drop ds.length
  let digitsVal : List Char → ℚ :=
    fun l => ((l.foldl (fun acc c => acc * 10 + (c.toNat - 48)) 0 : Nat) : ℚ)
  if ds.isEmpty then none
  else
    match rest with
    | [] => some (digitsVal ds)
    | '.' :: frac =>
        if frac.isEmpty || frac.any (fun c => !c.isDigit) then none
        else some (digitsVal ds + digitsVal frac / ((10 : ℚ) ^ frac.length))
    | _ => none

/-- `Scanner::extract_string`. -/
def extract_string (st : ScState) : Except Err TokenKind × ScState :=
  let (st2, newline_count) := advance_until_for_each (fun c => c = '"') st
  let st3 := { st2 with line := st2.line + newline_count }
  match st3.src with
  | [] => (.error (Err.lexical st3.line "Unterminated string literal."), st3)
  | q :: rest =>
      let st4 := { st3 with src := rest, lexemeBuffer := st3.lexemeBuffer.push q }
      (.ok (.string (trimQuotes st4.lexemeBuffer)), st4)

/-- `Scanner::extract_number`. -/
def extract_number (st : ScState) : Except Err TokenKind × ScState :=
  let st2 := advance_until (fun n => !n.isDigit) st
  let st3 :=
    match st2.src with
    | '.' :: maybe_digit :: rest =>
        if maybe_digit.isDigit then
          advance_until (fun n => !n.isDigit)
            { st2 with src := maybe_digit :: rest,
                       lexemeBuffer := st2.lexemeBuffer.push '.' }
        else st2
    | _ => st2
  match parseNumber st3.lexemeBuffer with
  | none =>
      (.error (Err.lexical st3.line
        ("Could not convert " ++ st3.lexemeBuffer ++ " into a number")), st3)
  | some q => (.ok (.number (.fin q)), st3)

/-- `Scanner::extract_identifier`. -/
def extract_identifier (st : ScState) : Except Err TokenKind × ScState :=
  let st2 := advance_until (fun n => !is_part_of_valid_identifier n) st
  match keywords st2.lexemeBuffer with
  | some k => (.ok k, st2)
  | none => (.ok .identifier, st2)

/-- `Scanner::next_token_kind`. -/
def next_token_kind (st : ScState) : ScannerResult × ScState :=
  match st.src with
  | [] => (.noMoreTokens, st)
  | next_char :: rest =>
      let st := { st with src := rest,
                          lexemeBuffer := st.lexemeBuffer.push next_char }
      if next_char = '(' then (.nextR (.ok .leftParen), st)
      else if next_char = ')' then (.nextR (.ok .rightParen), st)
      else if next_char = '{' then (.nextR (.ok .leftBrace), st)
      else if next_char = '}' then (.nextR (.ok .rightBrace), st)
      else if next_char = ',' then (.nextR (.ok .comma), st)
      else if next_char = '.' then (.nextR (.ok .dot), st)
      else if next_char = '-' then (.nextR (.ok .minus), st)
      else if next_char = '+' then (.nextR (.ok .plus), st)
      else if next_char = ';' then (.nextR (.ok .semicolon), st)
      else if next_char = '*' then (.nextR (.ok .star), st)
      else if next_char = '!' then
        let (m, st2) := does_next_match '=' st
        (.nextR (.ok (if m then .bangEqual else .bang)), st2)
      else if next_char = '=' then
        let (m, st2) := does_next_match '=' st
        (.nextR (.ok (if m then .equalEqual else .equal)), st2)
      else if next_char = '<' then
        let (m, st2) := does_next_match '=' st
        (.nextR (.ok (if m then .lessEqual else .less)), st2)
      else if next_char = '>' then
        let (m, st2) := does_next_match '=' st
        (.nextR (.ok (if m then .greaterEqual else .greater)), st2)
      else if next_char = '/' then
        let (m, st2) := does_next_match '/' st
        if m then (.skip, advance_until_match '\n' st2)
        else (.nextR (.ok .slash), st2)
      else if next_char = ' ' || next_char = '\r' || next_char = '\t' then
        (.skip, st)
      else if next_char = '\n' then (.skip, { st with line := st.line + 1 })
      else if next_char = '"' then
        let (r, st2) := extract_string st
        (.nextR r, st2)
      else if next_char.isDigit then
        let (r, st2) := extract_number st
        (.nextR r, st2)
      else if can_start_identifier next_char then
        let (r, st2) := extract_identifier st
        (.nextR r, st2)
      else
        (.nextR (.error (Err.lexical st.line
          ("Unexpected character " ++ "\x27" ++ String.mk [next_char] ++ "\x27"))), st)

/-- `Iterator::next` for `Scanner` (scanner.rs).  The recursion on `Skip`
consumes at least one source char per step, so fuel bounded by the source
length suffices; `scNext` supplies it. -/
def scNextF : Nat → ScState → Option (Except Err Token) × ScState
  | 0, st => (none, st)
  | fuel + 1, st =>
      let (next, st2) := next_token_kind st
      let lexeme := st2.lexemeBuffer
      let st3 := { st2 with lexemeBuffer := "" }
      match next with
      | .nextR result =>
          (some (result.map fun kind =>
            { kind, lexeme, line := st3.line }), st3)
      | .skip => scNextF fuel st3
      | .noMoreTokens => (none, st3)

/-- `Iterator::next` with adequate fuel. -/
def scNext (st : ScState) : Option (Except Err Token) × ScState :=
  scNextF (st.src.length + 1) st

/-- Driving the scanner iterator to completion (`Iterator::collect`, and the
`scanner.into_iter()` consumption in `bin/main.rs`).  Each yielded token
consumes at least one char, bounding the stream length by the source
length. -/
def scCollectF : Nat → ScState → List (Except Err Token) × ScState
  | 0, st => ([], st)
  | fuel + 1, st =>
      match scNext st with
      | (none, st2) => ([], st2)
      | (some t, st2) =>
          let (ts, st3) := scCollectF fuel st2
          (t :: ts, st3)

/-- The full token stream of a scanner (no end-of-file token appended; this
is the `into_iter` view used by `Lox::run`). -/
def scCollect (st : ScState) : List (Except Err Token) :=
  (scCollectF (st.src.length + 1) st).1

/-- `Scanner::scan_tokens`: read the line counter, drain the iterator, then
append the synthetic end-of-file token carrying that line value. -/
def scan_tokens (st : ScState) : List (Except Err Token) :=
  let line := st.line
  let tokens := scCollect st
  tokens ++ [.ok { kind := .endOfFile, lexeme := "", line := line }]

/-- Parser result: `parser.rs` methods return `Result<T>` while the token
iterator state persists across failures (declaration-level recovery reads
it), so each embedded parser function returns the result together with the
remaining token stream. -/
abbrev PRes (α : Type) := Except Err α × List Token

/-- `Peekable::peek` on the token stream (kind projection). -/
def peekKind (toks : List Token) : Option TokenKind :=
  toks.head?.map (fun t => t.kind)

/-- `Parser::check_next`. -/
def check_next (kind : TokenKind) (toks : List Token) : Bool :=
  match toks.head? with
  | some t => t.kind = kind
  | none => false

/-- `Parser::match_single`. -/
def match_single (kind : TokenKind) (toks : List Token) :
    Option Token × List Token :=
  match toks with
  | t :: rest => if t.kind = kind then (some t, rest) else (none, toks)
  | [] => (none, toks)

/-- `Parser::match_any` (first kind in the slice that matches). -/
def match_any (kinds : List TokenKind) (toks : List Token) :
    Option Token × List Token :=
  match kinds with
  | [] => (none, toks)
  | k :: ks =>
      match match_single k toks with
      | (some t, rest) => (some t, rest)
      | (none, _) => match_any ks toks

/-- `Parser::consume`: on mismatch the next token is consumed and reported
in the syntactic error. -/
def pConsume (kind : TokenKind) (error_msg : String) (toks : List Token) :
    PRes Token :=
  match match_single kind toks with
  | (some t, rest) => (.ok t, rest)
  | (none, _) =>
      match toks with
      | t :: rest => (.error (Err.syntactic t error_msg), rest)
      | [] => (.error Err.unexpected, [])

/-- Token kinds that begin a new declaration/statement for `synchronise`. -/
def isSyncBoundary (k : TokenKind) : Bool :=
  match k with
  | .kClass | .kFun | .kVar | .kFor | .kIf | .kWhile | .kPrint | .kReturn =>
      true
  | _ => false

/-- `Parser::synchronise`: discard tokens until a consumed `;` or a peeked
declaration/statement keyword. -/
def synchronise (toks : List Token) : List Token :=
  match toks with
  | [] => []
  | t :: rest =>
      if t.kind = .semicolon then rest
      else
        match rest with
        | next :: _ => if isSyncBoundary next.kind then rest else synchronise rest
        | [] => []

mutual

/-- `Parser::declaration` (`Option<Result<Stmt>>`, synchronising after an
error).  Fuel exhaustion surfaces as `Error::unexpected`; every theorem
evaluates the parser with ample fuel. -/
def pDeclaration (fuel : Nat) (toks : List Token) :
    Option (Except Err Stmt) × List Token :=
  match fuel with
  | 0 => (some (.error Err.unexpected), toks)
  | fuel + 1 =>
      match toks.head? with
      | none => (none, toks)
      | some _ =>
          let (result, toks2) :=
            match match_single .kClass toks with
            | (some _, rest) => pClassDeclaration fuel rest
            | (none, _) =>
                match match_single .kFun toks with
                | (some _, rest) =>
                    match pFunction fuel "function" rest with
                    | (.ok f, r2) => (.ok (Stmt.function f), r2)
                    | (.error e, r2) => (.error e, r2)
                | (none, _) =>
                    match match_single .kVar toks with
                    | (some _, rest) => pVarDeclaration fuel rest
                    | (none, _) => pStatement fuel toks
          match result with
          | .error e => (some (.error e), synchronise toks2)
          | .ok s => (some (.ok s), toks2)

/-- `Parser::class_declaration`.  The source builds
`Stmt::new_class(name, methods)`: no superclass clause is parsed (the token
after the class name must be `{`), so the `superclass` field of the
`stmt.rs` `Class` node is embedded as `none`. -/
def pClassDeclaration (fuel : Nat) (toks : List Token) : PRes Stmt :=
  match fuel with
  | 0 => (.error Err.unexpected, toks)
  | fuel + 1 =>
      match pConsume .identifier "Expected class name." toks with
      | (.error e, r) => (.error e, r)
      | (.ok name, r) =>
          match pConsume .leftBrace "Expected \x27\x7b\x27 before class body." r with
          | (.error e, r2) => (.error e, r2)
          | (.ok _, r2) =>
              match pClassBody fuel [] r2 with
              | (.error e, r3) => (.error e, r3)
              | (.ok methods, r3) =>
                  match pConsume .rightBrace "Expected \x27\x7d\x27 after class body." r3 with
                  | (.error e, r4) => (.error e, r4)
                  | (.ok _, r4) => (.ok (Stmt.classS name none methods), r4)

/-- The method loop of `class_declaration`. -/
def pClassBody (fuel : Nat) (acc : List FunDecl) (toks : List Token) :
    PRes (List FunDecl) :=
  match fuel with
  | 0 => (.error Err.unexpected, toks)
  | fuel + 1 =>
      if peekKind toks ≠ some .rightBrace then
        match pFunction fuel "method" toks with
        | (.error e, r) => (.error e, r)
        | (.ok m, r) => pClassBody fuel (acc ++ [m]) r
      else (.ok acc, toks)

/-- `Parser::var_declaration`. -/
def pVarDeclaration (fuel : Nat) (toks : List Token) : PRes Stmt :=
  match fuel with
  | 0 => (.error Err.unexpected, toks)
  | fuel + 1 =>
      match pConsume .identifier "Expected variable name." toks with
      | (.error e, r) => (.error e, r)
      | (.ok name, r) =>
          let (initializer, r2) :=
            match match_single .equal r with
            | (some _, rest) =>
                match pExpression fuel rest with
                | (.ok e, rr) => ((none : Option Err), (some e, rr))
                | (.error e, rr) => (some e, (none, rr))
            | (none, _) => (none, (none, r))
          match initializer with
          | some e => (.error e, r2.2)
          | none =>
              match pConsume .semicolon "Expected \x27;\x27 after variable declaration." r2.2 with
              | (.error e, r3) => (.error e, r3)
              | (.ok _, r3) => (.ok (Stmt.var name r2.1), r3)

/-- `Parser::statement`. -/
def pStatement (fuel : Nat) (toks : List Token) : PRes Stmt :=
  match fuel with
  | 0 => (.error Err.unexpected, toks)
  | fuel + 1 =>
      match match_single .kFor toks with
      | (some _, rest) => pForStatement fuel rest
      | (none, _) =>
      match match_single .kIf toks with
      | (some _, rest) => pIfStatement fuel rest
      | (none, _) =>
      match match_single .kPrint toks with
      | (some _, rest) => pPrintStatement fuel rest
      | (none, _) =>
      match match_single .kReturn toks with
      | (some token, rest) => pReturnStatement fuel token rest
      | (none, _) =>
      match match_single .kWhile toks with
      | (some _, rest) => pWhileStatement fuel rest
      | (none, _) =>
      match match_single .leftBrace toks with
      | (some _, rest) =>
          match pBlock fuel rest with
          | (.ok stmts, r) => (.ok (Stmt.block stmts), r)
          | (.error e, r) => (.error e, r)
      | (none, _) =>
          if toks.head?.isSome then pExpressionStatement fuel toks
          else (.error Err.unexpected, toks)

/-- `Parser::for_statement` (parse-time desugaring to a while loop). -/
def pForStatement (fuel : Nat) (toks : List Token) : PRes Stmt :=
  match fuel with
  | 0 => (.error Err.unexpected, toks)
  | fuel + 1 =>
      match pConsume .leftParen "Expected \x27(\x27 after \x27for\x27." toks with
      | (.error e, r) => (.error e, r)
      | (.ok _, r) =>
          let (initRes, r2) :
              Except Err (Option Stmt) × List Token :=
            match match_single .semicolon r with
            | (some _, rest) => (.ok none, rest)
            | (none, _) =>
                match match_single .kVar r with
                | (some _, rest) =>
                    match pVarDeclaration fuel rest with
                    | (.ok s, rr) => (.ok (some s), rr)
                    | (.error e, rr) => (.error e, rr)
                | (none, _) =>
                    match pExpressionStatement fuel r with
                    | (.ok s, rr) => (.ok (some s), rr)
                    | (.error e, rr) => (.error e, rr)
          match initRes with
          | .error e => (.error e, r2)
          | .ok initializer =>
              let (condRes, r3) :=
                if !check_next .semicolon r2 then pExpression fuel r2
                else (.ok (Expr.literal (Literal.bool true)), r2)
              match condRes with
              | .error e => (.error e, r3)
              | .ok condition =>
                  match pConsume .semicolon "Expected \x27;\x27 after loop condition." r3 with
                  | (.error e, r4) => (.error e, r4)
                  | (.ok _, r4) =>
                      let (incRes, r5) :
                          Except Err (Option Stmt) × List Token :=
                        if !check_next .rightParen r4 then
                          match pExpression fuel r4 with
                          | (.ok e, rr) => (.ok (some (Stmt.expression e)), rr)
                          | (.error e, rr) => (.error e, rr)
                        else (.ok none, r4)
                      match incRes with
                      | .error e => (.error e, r5)
                      | .ok increment =>
                          match pConsume .rightParen "Expected \x27)\x27 after for clauses." r5 with
                          | (.error e, r6) => (.error e, r6)
                          | (.ok _, r6) =>
                              match pStatement fuel r6 with
                              | (.error e, r7) => (.error e, r7)
                              | (.ok body, r7) =>
                                  let body2 :=
                                    match increment with
                                    | some i => Stmt.block [body, i]
                                    | none => body
                                  let while_loop := Stmt.whileS condition body2
                                  let while_loop2 :=
                                    match initializer with
                                    | some i => Stmt.block [i, while_loop]
                                    | none => while_loop
                                  (.ok while_loop2, r7)

/-- `Parser::if_statement`. -/
def pIfStatement (fuel : Nat) (toks : List Token) : PRes Stmt :=
  match fuel with
  | 0 => (.error Err.unexpected, toks)
  | fuel + 1 =>
      match pConsume .leftParen "Expected \x27(\x27 after \x27if\x27." toks with
      | (.error e, r) => (.error e, r)
      | (.ok _, r) =>
          match pExpression fuel r with
          | (.error e, r2) => (.error e, r2)
          | (.ok condition, r2) =>
              match pConsume .rightParen "Expected \x27)\x27 after if condition." r2 with
              | (.error e, r3) => (.error e, r3)
              | (.ok _, r3) =>
                  match pStatement fuel r3 with
                  | (.error e, r4) => (.error e, r4)
                  | (.ok then_branch, r4) =>
                      match match_single .kElse r4 with
                      | (some _, rest) =>
                          match pStatement fuel rest with
                          | (.error e, r5) => (.error e, r5)
                          | (.ok else_branch, r5) =>
                              (.ok (Stmt.ifS condition then_branch (some else_branch)), r5)
                      | (none, _) =>
                          (.ok (Stmt.ifS condition then_branch none), r4)

/-- `Parser::print_statement`. -/
def pPrintStatement (fuel : Nat) (toks : List Token) : PRes Stmt :=
  match fuel with
  | 0 => (.error Err.unexpected, toks)
  | fuel + 1 =>
      match pExpression fuel toks with
      | (.error e, r) => (.error e, r)
      | (.ok expression, r) =>
          match pConsume .semicolon "Expected \x27;\x27 after expression." r with
          | (.error e, r2) => (.error e, r2)
          | (.ok _, r2) => (.ok (Stmt.print expression), r2)

/-- `Parser::return_statement`.  The source always supplies a value
expression (literal nil for a bare `return`) and passes it to
`Stmt::new_return`, whose `stmt.rs` field is `Option<Expr>`; it is embedded
as `some`. -/
def pReturnStatement (fuel : Nat) (token : Token) (toks : List Token) :
    PRes Stmt :=
  match fuel with
  | 0 => (.error Err.unexpected, toks)
  | fuel + 1 =>
      let (valRes, r) :=
        if !check_next .semicolon toks then pExpression fuel toks
        else (.ok (Expr.literal Literal.nil), toks)
      match valRes with
      | .error e => (.error e, r)
      | .ok return_value =>
          match pConsume .semicolon "Expected \x27;\x27 after return value." r with
          | (.error e, r2) => (.error e, r2)
          | (.ok _, r2) => (.ok (Stmt.returnS token (some return_value)), r2)

/-- `Parser::while_statement`. -/
def pWhileStatement (fuel : Nat) (toks : List Token) : PRes Stmt :=
  match fuel with
  | 0 => (.error Err.unexpected, toks)
  | fuel + 1 =>
      match pConsume .leftParen "Expected \x27(\x27 after \x27while\x27." toks with
      | (.error e, r) => (.error e, r)
      | (.ok _, r) =>
          match pExpression fuel r with
          | (.error e, r2) => (.error e, r2)
          | (.ok condition, r2) =>
              match pConsume .rightParen "Expected \x27)\x27 after condition." r2 with
              | (.error e, r3) => (.error e, r3)
              | (.ok _, r3) =>
                  match pStatement fuel r3 with
                  | (.error e, r4) => (.error e, r4)
                  | (.ok body, r4) => (.ok (Stmt.whileS condition body), r4)

/-- `Parser::expression_statement`. -/
def pExpressionStatement (fuel : Nat) (toks : List Token) : PRes Stmt :=
  match fuel with
  | 0 => (.error Err.unexpected, toks)
  | fuel + 1 =>
      match pExpression fuel toks with
      | (.error e, r) => (.error e, r)
      | (.ok expression, r) =>
          match pConsume .semicolon "Expected \x27;\x27 after expression." r with
          | (.error e, r2) => (.error e, r2)
          | (.ok _, r2) => (.ok (Stmt.expression expression), r2)

/-- `Parser::function`. -/
def pFunction (fuel : Nat) (kind : String) (toks : List Token) :
    PRes FunDecl :=
  match fuel with
  | 0 => (.error Err.unexpected, toks)
  | fuel + 1 =>
      match pConsume .identifier ("Expected " ++ kind ++ " name") toks with
      | (.error e, r) => (.error e, r)
      | (.ok name, r) =>
          match pConsume .leftParen ("Expected \x27(\x27 after " ++ kind ++ " name.") r with
          | (.error e, r2) => (.error e, r2)
          | (.ok _, r2) =>
              let (paramsRes, r3) :
                  Except Err (List Token) × List Token :=
                if !check_next .rightParen r2 then pParams fuel [] r2
                else (.ok [], r2)
              match paramsRes with
              | .error e => (.error e, r3)
              | .ok params =>
                  if params.length > 255 then
                    (.error (Err.syntactic name "Cannot have more than 255 parameters."), r3)
                  else
                    match pConsume .rightParen "Expected \x27)\x27 after parameters." r3 with
                    | (.error e, r4) => (.error e, r4)
                    | (.ok _, r4) =>
                        match pConsume .leftBrace ("Expect \x27\x7b\x27 before " ++ kind ++ " body.") r4 with
                        | (.error e, r5) => (.error e, r5)
                        | (.ok _, r5) =>
                            match pBlock fuel r5 with
                            | (.error e, r6) => (.error e, r6)
                            | (.ok body, r6) => (.ok (FunDecl.mk name params body), r6)

/-- The parameter loop of `Parser::function`. -/
def pParams (fuel : Nat) (acc : List Token) (toks : List Token) :
    PRes (List Token) :=
  match fuel with
  | 0 => (.error Err.unexpected, toks)
  | fuel + 1 =>
      match pConsume .identifier "Expected a parameter name." toks with
      | (.error e, r) => (.error e, r)
      | (.ok p, r) =>
          match match_single .comma r with
          | (some _, rest) => pParams fuel (acc ++ [p]) rest
          | (none, _) => (.ok (acc ++ [p]), r)

/-- `Parser::block`. -/
def pBlock (fuel : Nat) (toks : List Token) : PRes (List Stmt) :=
  match fuel with
  | 0 => (.error Err.unexpected, toks)
  | fuel + 1 => pBlockLoop fuel [] toks

/-- The statement loop of `Parser::block` (`statements.push(d?)`
propagates a declaration error out of the block). -/
def pBlockLoop (fuel : Nat) (acc : List Stmt) (toks : List Token) :
    PRes (List Stmt) :=
  match fuel with
  | 0 => (.error Err.unexpected, toks)
  | fuel + 1 =>
      if peekKind toks ≠ some .rightBrace then
        match pDeclaration fuel toks with
        | (some (.ok d), r) => pBlockLoop fuel (acc ++ [d]) r
        | (some (.error e), r) => (.error e, r)
        | (none, r) =>
            match pConsume .rightBrace "Expected \x27\x7d\x27 after block." r with
            | (.error e, r2) => (.error e, r2)
            | (.ok _, r2) => (.ok acc, r2)
      else
        match pConsume .rightBrace "Expected \x27\x7d\x27 after block." toks with
        | (.error e, r2) => (.error e, r2)
        | (.ok _, r2) => (.ok acc, r2)

/-- `Parser::expression`. -/
def pExpression (fuel : Nat) (toks : List Token) : PRes Expr :=
  match fuel with
  | 0 => (.error Err.unexpected, toks)
  | fuel + 1 => pAssignment fuel toks

/-- `Parser::assignment` (right-associative; only a bare variable is a legal
assignment target, anything else is a hard syntax error at the `=`). -/
def pAssignment (fuel : Nat) (toks : List Token) : PRes Expr :=
  match fuel with
  | 0 => (.error Err.unexpected, toks)
  | fuel + 1 =>
      match pOr fuel toks with
      | (.error e, r) => (.error e, r)
      | (.ok e, r) =>
          match match_single .equal r with
          | (some equals, rest) =>
              match e with
              | Expr.var lhs =>
                  match pAssignment fuel rest with
                  | (.error e2, r2) => (.error e2, r2)
                  | (.ok value, r2) => (.ok (Expr.assign lhs value), r2)
              | _ => (.error (Err.syntactic equals "Invalid assignment target."), rest)
          | (none, _) => (.ok e, r)

/-- `Parser::or`. -/
def pOr (fuel : Nat) (toks : List Token) : PRes Expr :=
  match fuel with
  | 0 => (.error Err.unexpected, toks)
  | fuel + 1 =>
      match pAnd fuel toks with
      | (.error e, r) => (.error e, r)
      | (.ok e, r) => pOrLoop fuel e r

/-- The `while` loop of `Parser::or`. -/
def pOrLoop (fuel : Nat) (e : Expr) (toks : List Token) : PRes Expr :=
  match fuel with
  | 0 => (.error Err.unexpected, toks)
  | fuel + 1 =>
      match match_single .kOr toks with
      | (some op, rest) =>
          match pAnd fuel rest with
          | (.error e2, r2) => (.error e2, r2)
          | (.ok right, r2) => pOrLoop fuel (Expr.logical e op right) r2
      | (none, _) => (.ok e, toks)

/-- `Parser::and`. -/
def pAnd (fuel : Nat) (toks : List Token) : PRes Expr :=
  match fuel with
  | 0 => (.error Err.unexpected, toks)
  | fuel + 1 =>
      match pEquality fuel toks with
      | (.error e, r) => (.error e, r)
      | (.ok e, r) => pAndLoop fuel e r

/-- The `while` loop of `Parser::and`. -/
def pAndLoop (fuel : Nat) (e : Expr) (toks : List Token) : PRes Expr :=
  match fuel with
  | 0 => (.error Err.unexpected, toks)
  | fuel + 1 =>
      match match_single .kAnd toks with
      | (some op, rest) =>
          match pEquality fuel rest with
          | (.error e2, r2) => (.error e2, r2)
          | (.ok right, r2) => pAndLoop fuel (Expr.logical e op right) r2
      | (none, _) => (.ok e, toks)

/-- `Parser::equality` =
`match_binary_precedence_with_tokens(comparison, EQUALITY_TOKENS)`
(the generic combinator is instantiated per precedence level). -/
def pEquality (fuel : Nat) (toks : List Token) : PRes Expr :=
  match fuel with
  | 0 => (.error Err.unexpected, toks)
  | fuel + 1 =>
      match pComparison fuel toks with
      | (.error e, r) => (.error e, r)
      | (.ok e, r) => pEqualityLoop fuel e r

/-- Left-associative loop over `EQUALITY_TOKENS`. -/
def pEqualityLoop (fuel : Nat) (e : Expr) (toks : List Token) : PRes Expr :=
  match fuel with
  | 0 => (.error Err.unexpected, toks)
  | fuel + 1 =>
      match match_any [.bangEqual, .equalEqual] toks with
      | (some token, rest) =>
          match pComparison fuel rest with
          | (.error e2, r2) => (.error e2, r2)
          | (.ok right, r2) => pEqualityLoop fuel (Expr.binary e token right) r2
      | (none, _) => (.ok e, toks)

/-- `Parser::comparison` over `COMPARISON_TOKENS`. -/
def pComparison (fuel : Nat) (toks : List Token) : PRes Expr :=
  match fuel with
  | 0 => (.error Err.unexpected, toks)
  | fuel + 1 =>
      match pTerm fuel toks with
      | (.error e, r) => (.error e, r)
      | (.ok e, r) => pComparisonLoop fuel e r

/-- Left-associative loop over `COMPARISON_TOKENS`. -/
def pComparisonLoop (fuel : Nat) (e : Expr) (toks : List Token) : PRes Expr :=
  match fuel with
  | 0 => (.error Err.unexpected, toks)
  | fuel + 1 =>
      match match_any [.greater, .greaterEqual, .less, .lessEqual] toks with
      | (some token, rest) =>
          match pTerm fuel rest with
          | (.error e2, r2) => (.error e2, r2)
          | (.ok right, r2) => pComparisonLoop fuel (Expr.binary e token right) r2
      | (none, _) => (.ok e, toks)

/-- `Parser::term` over `TERM_TOKENS`. -/
def pTerm (fuel : Nat) (toks : List Token) : PRes Expr :=
  match fuel with
  | 0 => (.error Err.unexpected, toks)
  | fuel + 1 =>
      match pFactor fuel toks with
      | (.error e, r) => (.error e, r)
      | (.ok e, r) => pTermLoop fuel e r

/-- Left-associative loop over `TERM_TOKENS` (`[Minus, Plus]`). -/
def pTermLoop (fuel : Nat) (e : Expr) (toks : List Token) : PRes Expr :=
  match fuel with
  | 0 => (.error Err.unexpected, toks)
  | fuel + 1 =>
      match match_any [.minus, .plus] toks with
      | (some token, rest) =>
          match pFactor fuel rest with
          | (.error e2, r2) => (.error e2, r2)
          | (.ok right, r2) => pTermLoop fuel (Expr.binary e token right) r2
      | (none, _) => (.ok e, toks)

/-- `Parser::factor` over `FACTOR_TOKENS`. -/
def pFactor (fuel : Nat) (toks : List Token) : PRes Expr :=
  match fuel with
  | 0 => (.error Err.unexpected, toks)
  | fuel + 1 =>
      match pUnary fuel toks with
      | (.error e, r) => (.error e, r)
      | (.ok e, r) => pFactorLoop fuel e r

/-- Left-associative loop over `FACTOR_TOKENS` (`[Star, Slash]`). -/
def pFactorLoop (fuel : Nat) (e : Expr) (toks : List Token) : PRes Expr :=
  match fuel with
  | 0 => (.error Err.unexpected, toks)
  | fuel + 1 =>
      match match_any [.star, .slash] toks with
      | (some token, rest) =>
          match pUnary fuel rest with
          | (.error e2, r2) => (.error e2, r2)
          | (.ok right, r2) => pFactorLoop fuel (Expr.binary e token right) r2
      | (none, _) => (.ok e, toks)

/-- `Parser::unary` over `UNARY_TOKENS` (`[Bang, Minus]`). -/
def pUnary (fuel : Nat) (toks : List Token) : PRes Expr :=
  match fuel with
  | 0 => (.error Err.unexpected, toks)
  | fuel + 1 =>
      match match_any [.bang, .minus] toks with
      | (some token, rest) =>
          match pUnary fuel rest with
          | (.error e, r) => (.error e, r)
          | (.ok right, r) => (.ok (Expr.unary token right), r)
      | (none, _) => pCall fuel toks

/-- `Parser::call`. -/
def pCall (fuel : Nat) (toks : List Token) : PRes Expr :=
  match fuel with
  | 0 => (.error Err.unexpected, toks)
  | fuel + 1 =>
      match pPrimary fuel toks with
      | (.error e, r) => (.error e, r)
      | (.ok e, r) => pCallLoop fuel e r

/-- The `loop` of `Parser::call`: trailing `(`args`)` or `.name`. -/
def pCallLoop (fuel : Nat) (e : Expr) (toks : List Token) : PRes Expr :=
  match fuel with
  | 0 => (.error Err.unexpected, toks)
  | fuel + 1 =>
      match match_single .leftParen toks with
      | (some _, rest) =>
          match pFinishCall fuel e rest with
          | (.error e2, r2) => (.error e2, r2)
          | (.ok e2, r2) => pCallLoop fuel e2 r2
      | (none, _) =>
          match match_single .dot toks with
          | (some _, rest) =>
              match pConsume .identifier "Expected property name after \x27.\x27." rest with
              | (.error e2, r2) => (.error e2, r2)
              | (.ok name, r2) => pCallLoop fuel (Expr.get e name) r2
          | (none, _) => (.ok e, toks)

/-- `Parser::finish_call`. -/
def pFinishCall (fuel : Nat) (callee : Expr) (toks : List Token) : PRes Expr :=
  match fuel with
  | 0 => (.error Err.unexpected, toks)
  | fuel + 1 =>
      let (argsRes, r) : Except Err (List Expr) × List Token :=
        if !check_next .rightParen toks then
          match pExpression fuel toks with
          | (.error e, rr) => (.error e, rr)
          | (.ok first, rr) => pArgs fuel [first] rr
        else (.ok [], toks)
      match argsRes with
      | .error e => (.error e, r)
      | .ok args =>
          match pConsume .rightParen "Expected \x27)\x27 after arguments." r with
          | (.error e, r2) => (.error e, r2)
          | (.ok paren, r2) =>
              if args.length > 255 then
                (.error (Err.syntactic paren "Function cannot have more than 255 arguments."), r2)
              else (.ok (Expr.call callee paren args), r2)

/-- The argument loop of `Parser::finish_call`. -/
def pArgs (fuel : Nat) (acc : List Expr) (toks : List Token) :
    PRes (List Expr) :=
  match fuel with
  | 0 => (.error Err.unexpected, toks)
  | fuel + 1 =>
      match match_single .comma toks with
      | (some _, rest) =>
          match pExpression fuel rest with
          | (.error e, r) => (.error e, r)
          | (.ok a, r) => pArgs fuel (acc ++ [a]) r
      | (none, _) => (.ok acc, toks)

/-- `Parser::primary`.  No arm matches `This`/`Super` tokens: they fall to
the wildcard, a syntactic error with the empty message. -/
def pPrimary (fuel : Nat) (toks : List Token) : PRes Expr :=
  match fuel with
  | 0 => (.error Err.unexpected, toks)
  | fuel + 1 =>
      match toks with
      | [] => (.error Err.unexpected, [])
      | nxt :: rest =>
          match nxt.kind with
          | .kTrue => (.ok (Expr.literal (Literal.bool true)), rest)
          | .kFalse => (.ok (Expr.literal (Literal.bool false)), rest)
          | .kNil => (.ok (Expr.literal Literal.nil), rest)
          | .number n => (.ok (Expr.literal (Literal.number n)), rest)
          | .string s => (.ok (Expr.literal (Literal.string s)), rest)
          | .identifier => (.ok (Expr.var nxt), rest)
          | .leftParen =>
              match pExpression fuel rest with
              | (.error e, r) => (.error e, r)
              | (.ok expression, r) =>
                  match pConsume .rightParen "Expected \x27)\x27 after expression." r with
                  | (.error e, r2) => (.error e, r2)
                  | (.ok _, r2) => (.ok (Expr.grouping expression), r2)
          | _ => (.error (Err.syntactic nxt ""), rest)

/-- `Parser::parse`: collect declarations until the stream is exhausted. -/
def parseAll (fuel : Nat) (toks : List Token) : List (Except Err Stmt) :=
  match fuel with
  | 0 => [.error Err.unexpected]
  | fuel + 1 =>
      match pDeclaration fuel toks with
      | (none, _) => []
      | (some r, rest) => r :: parseAll fuel rest

end

/-- `value.rs` `Function { declaration, closure, is_init }`; the
`Rc<RefCell<Environment>>` closure is an environment index into the store. -/
structure FunctionV where
  declaration : FunDecl
  closure : Nat
  is_init : Bool

/-- `value.rs` `Value`.  `ClassPointer`/`InstancePointer` are store
indices; the single native function (`clock`) carries no data the claims
observe, so `NativeFn` is a bare tag. -/
inductive Value where
  | bool (b : Bool)
  | classV (c : Nat)
  | function (f : FunctionV)
  | inst (i : Nat)
  | nativeFn
  | nil
  | number (n : F64)
  | string (s : String)

/-- `From<Literal> for Value`. -/
def Value.ofLiteral : Literal → Value
  | .bool b => .bool b
  | .nil => .nil
  | .number n => .number n
  | .string s => .string s

/-- `Value::is_equal` (`value.rs`): NaN numbers compare equal (the Lox
convention, diverging from IEEE); every pair not matched by a listed arm —
including functions, classes, instances and native functions — is `false`. -/
def Value.is_equal : Value → Value → Bool
  | .nil, .nil => true
  | .bool s, .bool o => s == o
  | .number s, .number o =>
      if s.is_nan && o.is_nan then true else F64.ieeeEq s o
  | .string s, .string o => s == o
  | _, _ => false

/-- `Value::is_truthy`: `false` and `nil` are falsy, all else truthy. -/
def Value.is_truthy : Value → Bool
  | .bool false => false
  | .nil => false
  | _ => true

/-- Whether a value is a `Number` (used to state the C8 typing claim). -/
def Value.isNumber : Value → Bool
  | .number _ => true
  | _ => false

/-- Whether a value is a `String`. -/
def Value.isString : Value → Bool
  | .string _ => true
  | _ => false

/-- `environment.rs` `Environment { enclosing, values }` (the enclosing
`Rc` is an environment index). -/
structure Env where
  enclosing : Option Nat
  values : List (String × Value)

/-- `value.rs` `Class { name, superclass, fields }` (`fields` is the method
table built by `visit_class_stmt`). -/
structure ClassO where
  name : String
  superclass : Option Nat
  fields : List (String × Value)

/-- `value.rs` `Instance { class, fields }`. -/
structure InstanceO where
  klass : Nat
  fields : List (String × Value)

/-- The shared-ownership heap: `Rc<RefCell<_>>` cells for environments,
classes and instances, addressed by index. -/
structure Store where
  envs : List Env
  classes : List ClassO
  insts : List InstanceO

/-- Allocate a fresh environment cell (`Rc::new(RefCell::new(env))`). -/
def allocEnv (store : Store) (e : Env) : Nat × Store :=
  (store.envs.length, { store with envs := store.envs ++ [e] })

/-- Overwrite an environment cell (a `RefCell` write). -/
def setEnv (store : Store) (j : Nat) (e : Env) : Store :=
  { store with envs := store.envs.set j e }

/-- `environment.rs` `undefined_var_error`. -/
def undefined_var_error (name : Token) : Err :=
  Err.runtime name ("Undefined variable: " ++ name.lexeme)

/-- `Environment::define`: unconditional insert into the frame itself. -/
def env_define (store : Store) (i : Nat) (name : String) (value : Value) :
    Store :=
  match store.envs.get? i with
  | none => store
  | some e => setEnv store i { e with values := alistPut e.values name value }

/-- `Environment::get`: walk outward through enclosing frames.  The walk is
fueled; the interpreter always supplies fuel exceeding the chain length
(environment chains never cycle: a frame only ever encloses an
already-allocated one). -/
def env_get (fuel : Nat) (store : Store) (i : Nat) (name : Token) :
    Except Err Value :=
  match fuel with
  | 0 => .error Err.unexpected
  | fuel + 1 =>
      match store.envs.get? i with
      | none => .error (undefined_var_error name)
      | some e =>
          match alistGet e.values name.lexeme with
          | some v => .ok v
          | none =>
              match e.enclosing with
              | some j => env_get fuel store j name
              | none => .error (undefined_var_error name)

/-- `Environment::assign`: walk outward, assign where the name is bound
(`get_mut`), never defining anew. -/
def env_assign (fuel : Nat) (store : Store) (i : Nat) (name : Token)
    (value : Value) : Except Err Store :=
  match fuel with
  | 0 => .error Err.unexpected
  | fuel + 1 =>
      match store.envs.get? i with
      | none => .error (undefined_var_error name)
      | some e =>
          if alistHas e.values name.lexeme then
            .ok (setEnv store i { e with values := alistPut e.values name.lexeme value })
          else
            match e.enclosing with
            | some j => env_assign fuel store j name value
            | none => .error (undefined_var_error name)

/-- `Environment::with_ancestor_at`: walk exactly `distance` enclosing
links; `none` is the `unreachable!("Impossible scope. This is a static
analysis bug.")` branch, taken when a link is missing before the distance
is exhausted. -/
def with_ancestor_at (store : Store) (i : Nat) : Nat → Option Nat
  | 0 => some i
  | d + 1 =>
      match store.envs.get? i with
      | some e =>
          match e.enclosing with
          | some j => with_ancestor_at store j d
          | none => none
      | none => none

/-- Result of a depth-indexed environment access: `panic` is the
`unreachable!` branch of `with_ancestor_at`. -/
inductive EnvRes (α : Type) where
  | ok (a : α)
  | err (e : Err)
  | panic

/-- `Environment::get_at`: operate on the frame exactly `distance` links
up; a missing binding there is `undefined_var_error`. -/
def get_at (store : Store) (i : Nat) (distance : Nat) (name : Token) :
    EnvRes Value :=
  match with_ancestor_at store i distance with
  | none => .panic
  | some j =>
      match store.envs.get? j with
      | none => .panic
      | some e =>
          match alistGet e.values name.lexeme with
          | some v => .ok v
          | none => .err (undefined_var_error name)

/-- `Environment::assign_at`: assign in the frame exactly `distance` links
up (`get_mut`: only an existing binding is assigned). -/
def assign_at (store : Store) (i : Nat) (distance : Nat) (name : Token)
    (value : Value) : EnvRes Store :=
  match with_ancestor_at store i distance with
  | none => .panic
  | some j =>
      match store.envs.get? j with
      | none => .panic
      | some e =>
          if alistHas e.values name.lexeme then
            .ok (setEnv store j { e with values := alistPut e.values name.lexeme value })
          else .err (undefined_var_error name)

/-- Modelled from the spec: `Environment::maybe_get_at`, called by
`Function::this_value` in `callable.rs` but absent from the snapshot's
`environment.rs` — per the spec (§4.4) depth-indexed access walks exactly
`depth` links and reads that frame directly; the `maybe` variant yields
`none` instead of an error. -/
def maybe_get_at (store : Store) (i : Nat) (distance : Nat) (name : String) :
    Option Value :=
  match distance with
  | 0 => (store.envs.get? i).bind (fun e => alistGet e.values name)
  | d + 1 =>
      (store.envs.get? i).bind (fun e =>
        e.enclosing.bind (fun j => maybe_get_at store j d name))

/-- `ClassPointer::get_field`: a lookup in the class's own field (method)
table only — the stored `superclass` is not consulted. -/
def class_get_field (store : Store) (c : Nat) (name : String) :
    Option Value :=
  (store.classes.get? c).bind (fun k => alistGet k.fields name)

/-- `ClassPointer::instantiate`: a fresh instance of the class with an
empty field map. -/
def instantiate (store : Store) (c : Nat) : Nat × Store :=
  (store.insts.length,
   { store with insts := store.insts ++ [{ klass := c, fields := [] }] })

/-- `Function::binding`: a fresh environment enclosing the closure with
`this` defined to the instance; the returned function closes over it. -/
def binding (store : Store) (f : FunctionV) (i : Nat) : FunctionV × Store :=
  let (idx, store2) :=
    allocEnv store { enclosing := some f.closure,
                     values := [("this", Value.inst i)] }
  ({ declaration := f.declaration, closure := idx, is_init := f.is_init },
   store2)

/-- `InstancePointer::get`: own field first, else the class's own field
table (binding the value to the instance when it is a `Function`), else the
"Undefined property" runtime error. -/
def instance_get (store : Store) (i : Nat) (name : Token) :
    Except Err (Value × Store) :=
  match store.insts.get? i with
  | none => .error Err.unexpected
  | some io =>
      match alistGet io.fields name.lexeme with
      | some v => .ok (v, store)
      | none =>
          match class_get_field store io.klass name.lexeme with
          | some (Value.function method) =>
              let (m2, store2) := binding store method i
              .ok (Value.function m2, store2)
          | some v => .ok (v, store)
          | none =>
              .error (Err.runtime name
                ("Undefined property " ++ name.lexeme ++ "."))

/-- `InstancePointer::set`: unconditional insert into the instance's field
map. -/
def instance_set (store : Store) (i : Nat) (name : Token) (value : Value) :
    Store :=
  match store.insts.get? i with
  | none => store
  | some io =>
      let io2 : InstanceO :=
        { io with fields := alistPut io.fields name.lexeme value }
      { store with insts := store.insts.set i io2 }

/-- `callable.rs` `Callable::arity` for `ClassPointer`: the own `init`
method's parameter count, `0` when the class's own table has none. -/
def class_arity (store : Store) (c : Nat) : Nat :=
  match class_get_field store c "init" with
  | some (Value.function f) => f.declaration.params.length
  | _ => 0

/-- `resolver.rs` `VariableState`. -/
inductive VariableState where
  | declared
  | defined
deriving DecidableEq

/-- `resolver.rs` `FunctionType`. -/
inductive FunctionType where
  | fNone
  | fFunction
  | fMethod
  | fInit
deriving DecidableEq

/-- `resolver.rs` `ClassType`. -/
inductive ClassType where
  | cNone
  | cClass
deriving DecidableEq

/-- `Resolver` state: the scope stack (innermost frame first, i.e. the head
is the Rust `Vec`'s last element), the two context kinds, and the
interpreter's `locals: HashMap<Expr, usize>` table that
`Interpreter::resolve` inserts into — keyed by the structural value of the
`Expr`, exactly as the Rust `HashMap` keyed by derived `Eq`/`Hash` is. -/
structure RState where
  scopes : List (List (String × VariableState))
  current_function : FunctionType
  current_class : ClassType
  locals : List (Expr × Nat)

/-- `Resolver::new`: one (global) scope frame already on the stack. -/
def resolverNew : RState :=
  { scopes := [[]], current_function := .fNone, current_class := .cNone,
    locals := [] }

/-- `Resolver::begin_scope`. -/
def begin_scope (st : RState) : RState :=
  { st with scopes := [] :: st.scopes }

/-- `Resolver::end_scope`. -/
def end_scope (st : RState) : RState :=
  { st with scopes := st.scopes.tail }

/-- `Resolver::declare`: an existing entry in the innermost frame is the
"already exists in this scope" static error. -/
def rDeclare (n : Token) (st : RState) : Except Err RState :=
  match st.scopes with
  | [] => .ok st
  | scope :: rest =>
      if alistHas scope n.lexeme then
        .error (Err.static_analyzer n
          "A variable with this name already exists in this scope.")
      else
        .ok { st with scopes := alistPut scope n.lexeme .declared :: rest }

/-- `Resolver::define`: flip an existing innermost entry to `Defined`. -/
def rDefine (n : Token) (st : RState) : RState :=
  match st.scopes with
  | [] => st
  | scope :: rest =>
      if alistHas scope n.lexeme then
        { st with scopes := alistPut scope n.lexeme .defined :: rest }
      else st

/-- `Resolver::resolve_local`: innermost-to-outermost search; the index of
the first frame containing the name is the depth handed to
`Interpreter::resolve`, which inserts it under the expression's structural
key (`self.locals.insert(e.clone(), depth)`). -/
def resolve_local (e : Expr) (n : Token) (st : RState) : RState :=
  let rec findScope : List (List (String × VariableState)) → Nat →
      Option Nat
    | [], _ => none
    | scope :: rest, idx =>
        if alistHas scope n.lexeme then some idx else findScope rest (idx + 1)
  match findScope st.scopes 0 with
  | some idx => { st with locals := alistPut st.locals e idx }
  | none => st

mutual

/-- `Resolver::resolve_stmts`. -/
def rStmts (fuel : Nat) (l : List Stmt) (st : RState) : Except Err RState :=
  match fuel with
  | 0 => .error Err.unexpected
  | fuel + 1 =>
      match l with
      | [] => .ok st
      | s :: rest =>
          match rStmt fuel s st with
          | .error e => .error e
          | .ok st2 => rStmts fuel rest st2

/-- `Stmt::accept` for the resolver (`stmt::Visitor` impl in
`resolver.rs`). -/
def rStmt (fuel : Nat) (s : Stmt) (st : RState) : Except Err RState :=
  match fuel with
  | 0 => .error Err.unexpected
  | fuel + 1 =>
      match s with
      | .block statements =>
          match rStmts fuel statements (begin_scope st) with
          | .error e => .error e
          | .ok st2 => .ok (end_scope st2)
      | .classS name superclass methods =>
          let enclosing_class := st.current_class
          let st := { st with current_class := .cClass }
          match rDeclare name st with
          | .error e => .error e
          | .ok st2 =>
              let st3 := rDefine name st2
              let selfInherit : Bool :=
                match superclass with
                | some (Expr.var s2) => name.lexeme == s2.lexeme
                | _ => false
              if selfInherit then
                match superclass with
                | some (Expr.var s2) =>
                    .error (Err.static_analyzer s2
                      "A class may not inheret from itself.")
                | _ => .error Err.unexpected
              else
                let withSuper : Except Err RState :=
                  match superclass with
                  | some sup =>
                      match rExpr fuel sup st3 with
                      | .error e => .error e
                      | .ok st4 =>
                          let st5 := begin_scope st4
                          match st5.scopes with
                          | scope :: rest =>
                              let scope2 :=
                                alistPut scope "super" VariableState.defined
                              .ok { st5 with scopes := scope2 :: rest }
                          | [] => .ok st5
                  | none => .ok st3
                match withSuper with
                | .error e => .error e
                | .ok st6 =>
                    let st7 := begin_scope st6
                    let st8 :=
                      match st7.scopes with
                      | scope :: rest =>
                          let scope2 :=
                            alistPut scope "this" VariableState.defined
                          { st7 with scopes := scope2 :: rest }
                      | [] => st7
                    match rMethods fuel methods st8 with
                    | .error e => .error e
                    | .ok st9 =>
                        let st10 := end_scope st9
                        let st11 :=
                          if superclass.isSome then end_scope st10 else st10
                        .ok { st11 with current_class := enclosing_class }
      | .expression e => rExpr fuel e st
      | .function f =>
          match rDeclare f.name st with
          | .error e => .error e
          | .ok st2 => rFunction fuel f .fFunction (rDefine f.name st2)
      | .ifS condition thenB elseB =>
          match rExpr fuel condition st with
          | .error e => .error e
          | .ok st2 =>
              match rStmt fuel thenB st2 with
              | .error e => .error e
              | .ok st3 =>
                  match elseB with
                  | some eb => rStmt fuel eb st3
                  | none => .ok st3
      | .print e => rExpr fuel e st
      | .returnS keyword value =>
          match st.current_function with
          | .fNone =>
              .error (Err.static_analyzer keyword
                "Can\x27t return from top-level code.")
          | .fInit =>
              if value.isSome then
                .error (Err.static_analyzer keyword
                  "Cannot return a value from an initialiser.")
              else
                match value with
                | some v => rExpr fuel v st
                | none => .ok st
          | _ =>
              match value with
              | some v => rExpr fuel v st
              | none => .ok st
      | .var name initializer =>
          match rDeclare name st with
          | .error e => .error e
          | .ok st2 =>
              match initializer with
              | some i =>
                  match rExpr fuel i st2 with
                  | .error e => .error e
                  | .ok st3 => .ok (rDefine name st3)
              | none => .ok (rDefine name st2)
      | .whileS condition body =>
          match rExpr fuel condition st with
          | .error e => .error e
          | .ok st2 => rStmt fuel body st2

/-- The method loop of `visit_class_stmt`: `Init` for a method literally
named "init", `Method` otherwise. -/
def rMethods (fuel : Nat) (l : List FunDecl) (st : RState) :
    Except Err RState :=
  match fuel with
  | 0 => .error Err.unexpected
  | fuel + 1 =>
      match l with
      | [] => .ok st
      | m :: rest =>
          let declaration : FunctionType :=
            if m.name.lexeme == "init" then .fInit else .fMethod
          match rFunction fuel m declaration st with
          | .error e => .error e
          | .ok st2 => rMethods fuel rest st2

/-- `Resolver::resolve_function`. -/
def rFunction (fuel : Nat) (f : FunDecl) (t : FunctionType) (st : RState) :
    Except Err RState :=
  match fuel with
  | 0 => .error Err.unexpected
  | fuel + 1 =>
      let enclosing_function := st.current_function
      let st2 := begin_scope { st with current_function := t }
      match rParams fuel f.params st2 with
      | .error e => .error e
      | .ok st3 =>
          match rStmts fuel f.body st3 with
          | .error e => .error e
          | .ok st4 =>
              .ok { end_scope st4 with current_function := enclosing_function }

/-- The parameter loop of `resolve_function` (declare then define each). -/
def rParams (fuel : Nat) (l : List Token) (st : RState) :
    Except Err RState :=
  match fuel with
  | 0 => .error Err.unexpected
  | fuel + 1 =>
      match l with
      | [] => .ok st
      | p :: rest =>
          match rDeclare p st with
          | .error e => .error e
          | .ok st2 => rParams fuel rest (rDefine p st2)

/-- `Expr::accept` for the resolver (`expr::Visitor` impl in
`resolver.rs`). -/
def rExpr (fuel : Nat) (e : Expr) (st : RState) : Except Err RState :=
  match fuel with
  | 0 => .error Err.unexpected
  | fuel + 1 =>
      match e with
      | .assign name value =>
          match rExpr fuel value st with
          | .error er => .error er
          | .ok st2 => .ok (resolve_local (Expr.assign name value) name st2)
      | .binary left _ right =>
          match rExpr fuel left st with
          | .error er => .error er
          | .ok st2 => rExpr fuel right st2
      | .call callee _ arguments =>
          match rExpr fuel callee st with
          | .error er => .error er
          | .ok st2 => rExprList fuel arguments st2
      | .get object _ => rExpr fuel object st
      | .grouping inner => rExpr fuel inner st
      | .literal _ => .ok st
      | .logical left _ right =>
          match rExpr fuel left st with
          | .error er => .error er
          | .ok st2 => rExpr fuel right st2
      | .set object _ value =>
          match rExpr fuel value st with
          | .error er => .error er
          | .ok st2 => rExpr fuel object st2
      | .superE keyword method =>
          .ok (resolve_local (Expr.superE keyword method) keyword st)
      | .thisE keyword =>
          match st.current_class with
          | .cNone =>
              .error (Err.syntactic keyword
                "Can\x27t use \x27this\x27 outside of a class.")
          | _ => .ok (resolve_local (Expr.thisE keyword) keyword st)
      | .unary _ right => rExpr fuel right st
      | .var name =>
          match st.scopes.head?.bind (fun s2 => alistGet s2 name.lexeme) with
          | some .declared =>
              .error (Err.static_analyzer name
                "Can\x27t read local variable in its own initializer.")
          | _ => .ok (resolve_local (Expr.var name) name st)

/-- The argument loop of `visit_call_expr`. -/
def rExprList (fuel : Nat) (l : List Expr) (st : RState) :
    Except Err RState :=
  match fuel with
  | 0 => .error Err.unexpected
  | fuel + 1 =>
      match l with
      | [] => .ok st
      | e :: rest =>
          match rExpr fuel e st with
          | .error er => .error er
          | .ok st2 => rExprList fuel rest st2

end

/-- Run the resolver from a fresh `Resolver::new` over a program. -/
def resolveProgram (fuel : Nat) (stmts : List Stmt) : Except Err RState :=
  rStmts fuel stmts resolverNew

/-- Fractional decimal digits of `num/den` (`num < den`), up to `fuel`
digits, trailing zeros dropped by construction of the callers' inputs. -/
def fracDigits (fuel : Nat) (num den : Nat) : String :=
  match fuel with
  | 0 => ""
  | fuel + 1 =>
      if num = 0 || den = 0 then ""
      else
        let num10 := num * 10
        toString (num10 / den) ++ fracDigits fuel (num10 % den) den

/-- Rust `{}` formatting of `f64`: integers print without a fractional
part; finite non-integers print their (terminating, for the decimal
literals the scanner admits) decimal expansion. -/
def displayF64 (n : F64) : String :=
  match n with
  | .nan => "NaN"
  | .inf => "inf"
  | .neginf => "-inf"
  | .fin q =>
      if q.den = 1 then toString q.num
      else
        let sign := if q < 0 then "-" else ""
        let a := |q|
        let ip := a.num.toNat / a.den
        let fracNum := a.num.toNat % a.den
        sign ++ toString ip ++ "." ++ fracDigits 30 fracNum a.den

/-- `Display for Value` (`value.rs`), including the source's rendering of
classes as `"<name> instance"` (`Display for ClassPointer`) and hence of
instances as `"<name> instance instance"` (`Display for InstancePointer`
formats the class and appends `" instance"`). -/
def displayValue (store : Store) (v : Value) : String :=
  match v with
  | .bool b => if b then "true" else "false"
  | .classV c =>
      (match store.classes.get? c with
       | some k => k.name
       | none => "") ++ " instance"
  | .function f => "<fn " ++ f.declaration.name.lexeme ++ ">"
  | .inst i =>
      (match store.insts.get? i with
       | some io =>
           (match store.classes.get? io.klass with
            | some k => k.name
            | none => "") ++ " instance"
       | none => "") ++ " instance"
  | .nativeFn => "<native fn>"
  | .nil => "nil"
  | .number n => displayF64 n
  | .string s => s

/-- `interpreter.rs` `Thrown`: the runtime-error and `return` control
signals. -/
inductive Thrown where
  | errT (e : Err)
  | ret (v : Value)

/-- `Interpreter` state: the heap, the `globals` and current `environment`
indices, the resolver-populated `locals` table and the output sink's
accumulated lines. -/
structure IState where
  store : Store
  globals : Nat
  env : Nat
  locals : List (Expr × Nat)
  output : List String

/-- Outcome of one interpreter step: normal result with updated state, a
thrown signal with updated state, a Rust `unreachable!` panic, or fuel
exhaustion (never hit by the theorems, which supply ample fuel). -/
inductive Step (α : Type) where
  | ok (a : α) (s : IState)
  | thrown (t : Thrown) (s : IState)
  | panic
  | fuelOut

/-- Result of the `visit_binary_expr` dispatch on already-evaluated
operands: value, runtime error, or the `_ => unreachable!()` arm. -/
inductive BinRes where
  | okB (v : Value)
  | errB (e : Err)
  | panicB

/-- `interpreter.rs` `compute_if_numbers`: apply `f` when both operands are
numbers, else the "Operands must be numbers." runtime error at the
operator token.  The Rust generic `T: Into<Value>` is precomposed into
`f`. -/
def compute_if_numbers (op : Token) (left right : Value)
    (f : F64 → F64 → Value) : BinRes :=
  match left, right with
  | .number l, .number r => .okB (f l r)
  | _, _ => .errB (Err.runtime op "Operands must be numbers.")

/-- The operator dispatch of `visit_binary_expr` on the two evaluated
operand values (`interpreter.rs`): `+` admits two numbers or two strings;
`- / *` and the comparisons require numbers; `==`/`!=` use
`Value::is_equal`; any other token kind is the `unreachable!()` arm. -/
def binary_dispatch (op : Token) (left right : Value) : BinRes :=
  match op.kind with
  | .minus => compute_if_numbers op left right (fun l r => .number (l.sub r))
  | .plus =>
      match left, right with
      | .number l, .number r => .okB (.number (l.add r))
      | .string l, .string r => .okB (.string (l ++ r))
      | _, _ =>
          .errB (Err.runtime op "Operands must be two numbers or two strings.")
  | .slash => compute_if_numbers op left right (fun l r => .number (l.div r))
  | .star => compute_if_numbers op left right (fun l r => .number (l.mul r))
  | .greater => compute_if_numbers op left right (fun l r => .bool (F64.ieeeLt r l))
  | .greaterEqual => compute_if_numbers op left right (fun l r => .bool (F64.ieeeLe r l))
  | .less => compute_if_numbers op left right (fun l r => .bool (F64.ieeeLt l r))
  | .lessEqual => compute_if_numbers op left right (fun l r => .bool (F64.ieeeLe l r))
  | .equalEqual => .okB (.bool (left.is_equal right))
  | .bangEqual => .okB (.bool (!(left.is_equal right)))
  | _ => .panicB

/-- `Callable::arity` dispatch (`callable.rs`): parameter count for a
`Function`, own-`init` parameter count for a class, `0` for the native. -/
def callable_arity (store : Store) (v : Value) : Nat :=
  match v with
  | .classV c => class_arity store c
  | .function f => f.declaration.params.length
  | _ => 0

/-- Whether `Value::callable` yields `Some` (`Class`, `Function`,
`NativeFn`). -/
def isCallable : Value → Bool
  | .classV _ | .function _ | .nativeFn => true
  | _ => false

/-- `Function::this_value` (`callable.rs`): `maybe_get_at(0, "this")` on
the closure, `Error::unexpected` when absent. -/
def this_value (f : FunctionV) (s : IState) : Step Value :=
  match maybe_get_at s.store f.closure 0 "this" with
  | some v => .ok v s
  | none => .thrown (.errT Err.unexpected) s

/-- Fuel for unbounded name-based environment walks: one more than the
number of allocated frames (chains never revisit a frame). -/
def chainFuel (s : IState) : Nat := s.store.envs.length + 1

mutual

/-- `Interpreter::lookup_variable`: depth-table hit goes through `get_at`
from the current environment, miss falls back to `globals.get`. -/
def iLookupVariable (name : Token) (e : Expr) (st : IState) : Step Value :=
  match alistGet st.locals e with
  | some distance =>
      match get_at st.store st.env distance name with
      | .ok v => .ok v st
      | .err er => .thrown (.errT er) st
      | .panic => .panic
  | none =>
      match env_get (chainFuel st) st.store st.globals name with
      | .ok v => .ok v st
      | .error er => .thrown (.errT er) st

/-- `Expr::accept` for the interpreter (`expr::Visitor` impl).  The
`superE` case: `interpreter.rs` implements no `visit_super_expr`, so it is
embedded as a panic (the snapshot has no executable behaviour for it; no
claim exercises it). -/
def iEval (fuel : Nat) (e : Expr) (st : IState) : Step Value :=
  match fuel with
  | 0 => .fuelOut
  | fuel + 1 =>
      match e with
      | .literal v => .ok (Value.ofLiteral v) st
      | .grouping inner => iEval fuel inner st
      | .unary op right =>
          match iEval fuel right st with
          | .ok v s2 =>
              match op.kind, v with
              | .minus, .number n => .ok (.number n.neg) s2
              | .minus, _ =>
                  .thrown (.errT (Err.runtime op "Operand must be a number.")) s2
              | .bang, v2 => .ok (.bool (!v2.is_truthy)) s2
              | _, _ => .panic
          | r => r
      | .binary left op right =>
          match iEval fuel left st with
          | .ok l s2 =>
              match iEval fuel right s2 with
              | .ok r s3 =>
                  match binary_dispatch op l r with
                  | .okB v => .ok v s3
                  | .errB er => .thrown (.errT er) s3
                  | .panicB => .panic
              | r2 => r2
          | r2 => r2
      | .logical left op right =>
          match iEval fuel left st with
          | .ok l s2 =>
              match op.kind, l.is_truthy with
              | .kOr, true => .ok l s2
              | .kAnd, false => .ok l s2
              | .kOr, false => iEval fuel right s2
              | .kAnd, true => iEval fuel right s2
              | _, _ => .panic
          | r => r
      | .call callee paren arguments =>
          match iEval fuel callee st with
          | .ok c s2 =>
              match iEvalList fuel arguments s2 with
              | .ok args s3 =>
                  if !isCallable c then
                    .thrown (.errT (Err.runtime paren
                      "Can only call functions and classes.")) s3
                  else if args.length ≠ callable_arity s3.store c then
                    .thrown (.errT (Err.runtime paren
                      ("Expected " ++ toString (callable_arity s3.store c) ++
                       " arguments but got " ++ toString args.length))) s3
                  else
                    match c with
                    | .classV cp => iCallClass fuel cp args s3
                    | .function f => iCallFunction fuel f args s3
                    | _ => .ok (Value.number (F64.fin 0)) s3
              | .thrown t s3 => .thrown t s3
              | .panic => .panic
              | .fuelOut => .fuelOut
          | r => r
      | .get object name =>
          match iEval fuel object st with
          | .ok (Value.inst i) s2 =>
              match instance_get s2.store i name with
              | .ok (v, store2) => .ok v { s2 with store := store2 }
              | .error er => .thrown (.errT er) s2
          | .ok _ s2 =>
              .thrown (.errT (Err.runtime name
                "Only instances have properties.")) s2
          | r => r
      | .set object name value =>
          match iEval fuel object st with
          | .ok (Value.inst i) s2 =>
              match iEval fuel value s2 with
              | .ok v s3 =>
                  .ok v { s3 with store := instance_set s3.store i name v }
              | r => r
          | .ok _ s2 =>
              .thrown (.errT (Err.runtime name
                "Only instances have properties.")) s2
          | r => r
      | .thisE keyword => iLookupVariable keyword (Expr.thisE keyword) st
      | .superE _ _ => .panic
      | .var name => iLookupVariable name (Expr.var name) st
      | .assign name value =>
          match iEval fuel value st with
          | .ok v s2 =>
              match alistGet s2.locals (Expr.assign name value) with
              | some distance =>
                  match assign_at s2.store s2.env distance name v with
                  | .ok store2 => .ok v { s2 with store := store2 }
                  | .err er => .thrown (.errT er) s2
                  | .panic => .panic
              | none =>
                  match env_assign (chainFuel s2) s2.store s2.globals name v with
                  | .ok store2 => .ok v { s2 with store := store2 }
                  | .error er => .thrown (.errT er) s2
          | r => r

/-- Sequential evaluation of call arguments
(`collect::<Result<_>>` short-circuits on the first error). -/
def iEvalList (fuel : Nat) (es : List Expr) (st : IState) :
    Step (List Value) :=
  match fuel with
  | 0 => .fuelOut
  | fuel + 1 =>
      match es with
      | [] => .ok [] st
      | e :: rest =>
          match iEval fuel e st with
          | .ok v s2 =>
              match iEvalList fuel rest s2 with
              | .ok vs s3 => .ok (v :: vs) s3
              | r => r
          | .thrown t s2 => .thrown t s2
          | .panic => .panic
          | .fuelOut => .fuelOut

/-- `Stmt::accept` for the interpreter (`stmt::Visitor` impl). -/
def iExec (fuel : Nat) (s : Stmt) (st : IState) : Step Unit :=
  match fuel with
  | 0 => .fuelOut
  | fuel + 1 =>
      match s with
      | .block statements =>
          iExecBlock fuel statements { enclosing := some st.env, values := [] } st
      | .classS name superclass methods =>
          let superRes : Step (Option Nat) :=
            match superclass with
            | none => .ok none st
            | some sExpr =>
                match iEval fuel sExpr st with
                | .ok (Value.classV sup) s2 => .ok (some sup) s2
                | .ok _ s2 =>
                    .thrown (.errT (Err.runtime name
                      "Superclass must be a class.")) s2
                | .thrown t s2 => .thrown t s2
                | .panic => .panic
                | .fuelOut => .fuelOut
          match superRes with
          | .ok sup s2 =>
              let store2 := env_define s2.store s2.env name.lexeme Value.nil
              let methodTable := methods.foldl
                (fun acc m =>
                  alistPut acc m.name.lexeme
                    (Value.function
                      { declaration := m, closure := s2.env,
                        is_init := m.name.lexeme == "init" }))
                []
              let classIdx := store2.classes.length
              let store3 :=
                { store2 with classes := store2.classes ++
                    [{ name := name.lexeme, superclass := sup,
                       fields := methodTable }] }
              let s3 := { s2 with store := store3 }
              match env_assign (chainFuel s3) s3.store s3.env name
                  (Value.classV classIdx) with
              | .ok store4 => .ok () { s3 with store := store4 }
              | .error er => .thrown (.errT er) s3
          | .thrown t s2 => .thrown t s2
          | .panic => .panic
          | .fuelOut => .fuelOut
      | .expression e =>
          match iEval fuel e st with
          | .ok _ s2 => .ok () s2
          | .thrown t s2 => .thrown t s2
          | .panic => .panic
          | .fuelOut => .fuelOut
      | .function f =>
          let fv : FunctionV :=
            { declaration := f, closure := st.env, is_init := false }
          let store2 := env_define st.store st.env f.name.lexeme (Value.function fv)
          .ok () { st with store := store2 }
      | .ifS condition thenB elseB =>
          match iEval fuel condition st with
          | .ok v s2 =>
              if v.is_truthy then iExec fuel thenB s2
              else
                match elseB with
                | some eb => iExec fuel eb s2
                | none => .ok () s2
          | .thrown t s2 => .thrown t s2
          | .panic => .panic
          | .fuelOut => .fuelOut
      | .print e =>
          match iEval fuel e st with
          | .ok v s2 =>
              .ok () { s2 with output := s2.output ++ [displayValue s2.store v] }
          | .thrown t s2 => .thrown t s2
          | .panic => .panic
          | .fuelOut => .fuelOut
      | .returnS _ value =>
          match value with
          | some v =>
              match iEval fuel v st with
              | .ok rv s2 => .thrown (.ret rv) s2
              | .thrown t s2 => .thrown t s2
              | .panic => .panic
              | .fuelOut => .fuelOut
          | none => .thrown (.ret Value.nil) st
      | .var name initializer =>
          match initializer with
          | some i =>
              match iEval fuel i st with
              | .ok v s2 =>
                  let store2 := env_define s2.store s2.env name.lexeme v
                  .ok () { s2 with store := store2 }
              | .thrown t s2 => .thrown t s2
              | .panic => .panic
              | .fuelOut => .fuelOut
          | none =>
              let store2 := env_define st.store st.env name.lexeme Value.nil
              .ok () { st with store := store2 }
      | .whileS condition body =>
          match iEval fuel condition st with
          | .ok v s2 =>
              if v.is_truthy then
                match iExec fuel body s2 with
                | .ok _ s3 => iExec fuel (Stmt.whileS condition body) s3
                | .thrown t s3 => .thrown t s3
                | .panic => .panic
                | .fuelOut => .fuelOut
              else .ok () s2
          | .thrown t s2 => .thrown t s2
          | .panic => .panic
          | .fuelOut => .fuelOut

/-- `Interpreter::execute_block`: swap in the child environment (allocated
as a fresh cell), run the statements, and restore the old environment
pointer on both the normal and the thrown exit path. -/
def iExecBlock (fuel : Nat) (statements : List Stmt) (environment : Env)
    (st : IState) : Step Unit :=
  match fuel with
  | 0 => .fuelOut
  | fuel + 1 =>
      let old_env := st.env
      let (idx, store2) := allocEnv st.store environment
      iExecStmts fuel statements old_env
        { st with store := store2, env := idx }

/-- The statement loop of `execute_block` (restoring `old_env` on exit). -/
def iExecStmts (fuel : Nat) (statements : List Stmt) (old_env : Nat)
    (st : IState) : Step Unit :=
  match fuel with
  | 0 => .fuelOut
  | fuel + 1 =>
      match statements with
      | [] => .ok () { st with env := old_env }
      | s :: rest =>
          match iExec fuel s st with
          | .ok _ s2 => iExecStmts fuel rest old_env s2
          | .thrown t s2 => .thrown t { s2 with env := old_env }
          | .panic => .panic
          | .fuelOut => .fuelOut

/-- `Callable::call` for `Function` (`callable.rs`): bind parameters in a
child of the closure, execute the body as a block, then: an initializer
yields `this_value()` whether the body completed or returned; otherwise a
`return` value or nil. -/
def iCallFunction (fuel : Nat) (f : FunctionV) (args : List Value)
    (st : IState) : Step Value :=
  match fuel with
  | 0 => .fuelOut
  | fuel + 1 =>
      let environment : Env :=
        { enclosing := some f.closure,
          values := (f.declaration.params.zip args).foldl
            (fun acc pa => alistPut acc pa.1.lexeme pa.2) [] }
      match iExecBlock fuel f.declaration.body environment st with
      | .ok _ s2 => if f.is_init then this_value f s2 else .ok Value.nil s2
      | .thrown (.ret v) s2 =>
          if f.is_init then this_value f s2 else .ok v s2
      | .thrown (.errT e) s2 => .thrown (.errT e) s2
      | .panic => .panic
      | .fuelOut => .fuelOut

/-- `Callable::call` for `ClassPointer` (`callable.rs`): instantiate, call
the own-table `init` (when it is a `Function`) bound to the new instance,
discarding its result; yield the new instance. -/
def iCallClass (fuel : Nat) (c : Nat) (args : List Value) (st : IState) :
    Step Value :=
  match fuel with
  | 0 => .fuelOut
  | fuel + 1 =>
      let (instIdx, store2) := instantiate st.store c
      let s2 := { st with store := store2 }
      match class_get_field s2.store c "init" with
      | some (Value.function init) =>
          let (bound, store3) := binding s2.store init instIdx
          let s3 := { s2 with store := store3 }
          match iCallFunction fuel bound args s3 with
          | .ok _ s4 => .ok (Value.inst instIdx) s4
          | .thrown t s4 => .thrown t s4
          | .panic => .panic
          | .fuelOut => .fuelOut
      | _ => .ok (Value.inst instIdx) s2

end

/-- `Interpreter::new`: a globals frame seeded with the native `clock`, and
a current environment that is a fresh child of globals; the locals table
starts empty. -/
def interpreterNew : IState :=
  { store :=
      { envs := [ { enclosing := none, values := [("clock", Value.nativeFn)] },
                  { enclosing := some 0, values := [] } ],
        classes := [], insts := [] },
    globals := 0, env := 1, locals := [], output := [] }

/-- Final outcome of a `Lox::run` (`bin/main.rs`): which stage failed, or
completion; `panicked` is a Rust `unreachable!` (including a `return`
signal surviving to `Interpreter::interpret`). -/
inductive RunOutcome where
  | lexFail (errs : List Err)
  | parseFail (errs : List Err)
  | runtimeFail (e : Err) (output : List String)
  | completed (output : List String)
  | panicked
  | fuelOut

/-- `Interpreter::interpret`: execute the statements in order; a surviving
`Return` signal is `unreachable!`, an error aborts the rest. -/
def interpretProgram (fuel : Nat) (stmts : List Stmt)
    (locals : List (Expr × Nat)) : RunOutcome :=
  let st := { interpreterNew with locals := locals }
  match iExecStmts fuel stmts st.env st with
  | .ok _ s2 => .completed s2.output
  | .thrown (.ret _) _ => .panicked
  | .thrown (.errT e) s2 => .runtimeFail e s2.output
  | .panic => .panicked
  | .fuelOut => .fuelOut

/-- The lexical errors of a source text under the `Lox::run` scan
(`scanner.into_iter().partition(Result::is_ok)`: no end-of-file token is
appended on this path). -/
def lexErrors (src : String) : List Err :=
  (scCollect (scannerNew src)).filterMap
    (fun r => match r with | .ok _ => none | .error e => some e)

/-- The token stream of a source text under the `Lox::run` scan. -/
def lexTokens (src : String) : List Token :=
  (scCollect (scannerNew src)).filterMap
    (fun r => match r with | .ok t => some t | .error _ => none)

/-- The syntactic errors of the parse pass in `Lox::run`. -/
def parseErrors (fuel : Nat) (src : String) : List Err :=
  (parseAll fuel (lexTokens src)).filterMap
    (fun r => match r with | .ok _ => none | .error e => some e)

/-- The successfully parsed statements of the parse pass in `Lox::run`. -/
def parseStmts (fuel : Nat) (src : String) : List Stmt :=
  (parseAll fuel (lexTokens src)).filterMap
    (fun r => match r with | .ok s => some s | .error _ => none)

/-- `Lox::run` (`bin/main.rs`): scan; if any lexical error, stop (exit 65);
parse; if any syntactic error, stop (exit 65); otherwise interpret the
parsed statements directly — no resolver pass is invoked, so the
interpreter's locals table is empty. -/
def loxRun (fuel : Nat) (src : String) : RunOutcome :=
  let errors := lexErrors src
  if errors ≠ [] then .lexFail errors
  else
    let perrs := parseErrors fuel src
    if perrs ≠ [] then .parseFail perrs
    else interpretProgram fuel (parseStmts fuel src) []

/-- Running the resolver over a parsed program and, when it succeeds,
interpreting with the locals table it produced — the combination the spec
describes (`Resolver::new(&mut interpreter)` writes into the interpreter's
table through `Interpreter::resolve`). -/
def resolveThenInterpret (fuel : Nat) (stmts : List Stmt) : RunOutcome :=
  match resolveProgram fuel stmts with
  | .error _ => .panicked
  | .ok rst => interpretProgram fuel stmts rst.locals

/-- The locals table the resolver produces for a program (`none` when
resolution fails). -/
def resolvedLocals (fuel : Nat) (stmts : List Stmt) :
    Option (List (Expr × Nat)) :=
  match resolveProgram fuel stmts with
  | .error _ => none
  | .ok rst => some rst.locals

/-- The identifier token `a` on line 1. -/
def tokA : Token := { kind := .identifier, lexeme := "a", line := 1 }

/-- The identifier token `a` on line 2. -/
def tokA2 : Token := { kind := .identifier, lexeme := "a", line := 2 }

/-- A `Variable` occurrence of `a` (line 1). -/
def aExpr : Expr := Expr.var tokA

/-- A `Variable` occurrence of `a` (line 2). -/
def aExpr2 : Expr := Expr.var tokA2

/-- The one-line program `var a = 1; { { print a; } } { print a; }`: the two
`print a` occurrences sit at different lexical positions (different
statements, different scope depths) but are structurally identical
`Expr::Variable` nodes — same kind, lexeme and line. -/
def collisionStmts : List Stmt :=
  [ Stmt.var tokA (some (Expr.literal (Literal.number (F64.fin 1)))),
    Stmt.block [Stmt.block [Stmt.print aExpr]],
    Stmt.block [Stmt.print aExpr] ]

/-- The same program with the second `print a;` on line 2, making the two
occurrences structurally distinct. -/
def collisionStmtsLine2 : List Stmt :=
  [ Stmt.var tokA (some (Expr.literal (Literal.number (F64.fin 1)))),
    Stmt.block [Stmt.block [Stmt.print aExpr]],
    Stmt.block [Stmt.print aExpr2] ]

/-- C1 counterexample: resolving only the first two statements of
`collisionStmts` records depth 2 for the first `print a` occurrence, but
after the full program is resolved the (single, shared) table entry holds
depth 1 — the depth recorded for the *other*, structurally equal occurrence
in a shallower scope.  The interpreter's lookup for the first occurrence
therefore yields 1, not the 2 recorded for it, refuting per-occurrence
independence. -/
theorem c1_counterexample :
    resolvedLocals 1000 (collisionStmts.take 2) = some [(aExpr, 2)] ∧
    resolvedLocals 1000 collisionStmts = some [(aExpr, 1)] := by
  exact ⟨rfl, rfl⟩

/-- C1 (amended): the resolver's occurrence-to-depth table is keyed by the
structural value of the expression (the derived `Eq`/`Hash` on `Expr`,
token line numbers included), not by occurrence identity: structurally
identical occurrences share a single entry whose depth is the most recently
recorded one, and the interpreter looks occurrences up by the same
structural key; occurrences that differ in line number are distinct keys
and resolve independently (the line-distinguished variant records both
depths and executes correctly, printing `1` twice). -/
theorem c1_structural_keying :
    resolvedLocals 1000 collisionStmts = some [(aExpr, 1)] ∧
    alistGet [(aExpr, 1)] aExpr = some 1 ∧
    resolvedLocals 1000 collisionStmtsLine2 = some [(aExpr, 2), (aExpr2, 1)] ∧
    resolveThenInterpret 1000 collisionStmtsLine2 = .completed ["1", "1"] := by
  exact ⟨rfl, rfl, rfl, rfl⟩

/-- C7 counterexample: in `collisionStmts` the first `print a` occurrence
has a depth recorded in the resolver's table (the shared entry holds 1),
yet interpreting with that table makes `get_at` walk 1 link from the inner
block's environment to the outer block's frame, which does not bind `a` —
the undefined-variable error path fires on a resolver-covered occurrence,
before any output is produced. -/
theorem c7_counterexample :
    resolvedLocals 1000 collisionStmts = some [(aExpr, 1)] ∧
    resolveThenInterpret 1000 collisionStmts =
      .runtimeFail (Err.runtime tokA "Undefined variable: a") [] := by
  exact ⟨rfl, rfl⟩

/-- C7 (amended): `get_at`/`assign_at` walk exactly `distance` enclosing
links, and *provided* the frame at that distance exists and binds the name,
they find that binding: neither the impossible-scope `unreachable!` branch
nor the undefined-variable error path is taken, and `assign_at` updates
exactly that frame.  The resolver's value-keyed table does not guarantee
this provision for every recorded occurrence (see the counterexample). -/
theorem c7_get_at_correct :
    ∀ (store : Store) (i d : Nat) (name : Token) (j : Nat) (e : Env)
      (v : Value),
      with_ancestor_at store i d = some j →
      store.envs.get? j = some e →
      alistGet e.values name.lexeme = some v →
      get_at store i d name = .ok v ∧
      ∀ value, assign_at store i d name value =
        .ok (setEnv store j { e with values := alistPut e.values name.lexeme value }) := by
  intro store i d name j e v hanc henv hval
  have hHas : alistHas e.values name.lexeme = true := by
    unfold alistHas
    rw [hval]
    rfl
  constructor
  · unfold get_at
    simp only [hanc, henv, hval]
  · intro value
    unfold assign_at
    simp only [hanc, henv, hHas, if_true]

/-- The concrete two-frame store of the C7 witness. -/
def c7Store : Store :=
  { envs := [ { enclosing := none, values := [("x", Value.nil)] },
              { enclosing := some 0, values := [] } ],
    classes := [], insts := [] }

/-- The identifier token `x` used by the C7 witness. -/
def tokX : Token := { kind := .identifier, lexeme := "x", line := 1 }

/-- C7 witness: a two-frame chain with `x` bound in the outer frame; the
recorded depth 1 walks one link and finds it. -/
theorem c7_witness :
    get_at c7Store 1 1 tokX = .ok Value.nil := by
  exact (c7_get_at_correct c7Store 1 1 tokX 0
    { enclosing := none, values := [("x", Value.nil)] } Value.nil
    rfl rfl rfl).1

set_option maxRecDepth 100000

deriving instance DecidableEq for RunOutcome

/-- The source `print 1; { var a = a; }`: lexically and syntactically
clean, but its block reads the local `a` in its own initializer — a static
error the resolver reports. -/
def gateSrc : String := "print 1; \x7b var a = a; \x7d"

/-- The token stream the scanner produces for `gateSrc` (proved below). -/
def gateToks : List Token :=
  [ { kind := .kPrint, lexeme := "print", line := 1 },
    { kind := .number (F64.fin 1), lexeme := "1", line := 1 },
    { kind := .semicolon, lexeme := ";", line := 1 },
    { kind := .leftBrace, lexeme := "\x7b", line := 1 },
    { kind := .kVar, lexeme := "var", line := 1 },
    { kind := .identifier, lexeme := "a", line := 1 },
    { kind := .equal, lexeme := "=", line := 1 },
    { kind := .identifier, lexeme := "a", line := 1 },
    { kind := .semicolon, lexeme := ";", line := 1 },
    { kind := .rightBrace, lexeme := "\x7d", line := 1 } ]

/-- The resolver's verdict on a program, projected to the error. -/
def resolveErrOf (stmts : List Stmt) : Option Err :=
  match resolveProgram 1000 stmts with
  | .error e => some e
  | .ok _ => none

/-- C2 counterexample: `gateSrc` carries a static error (the resolver run
over its parse rejects it), yet `Lox::run` executes it: the first statement
runs and prints `1` before the initializer read fails at runtime — so a
static error somewhere in the program does not prevent execution, because
no resolver pass runs in the pipeline. -/
theorem c2_counterexample :
    resolveErrOf (parseStmts 1000 gateSrc) =
      some (Err.static_analyzer tokA
        "Can\x27t read local variable in its own initializer.") ∧
    loxRun 1000 gateSrc =
      .runtimeFail (Err.runtime tokA "Undefined variable: a") ["1"] := by
  have htoks : lexTokens gateSrc = gateToks := by decide
  have hlex : lexErrors gateSrc = [] := by decide
  have hperr : parseErrors 1000 gateSrc = [] := by
    unfold parseErrors
    rw [htoks]
    decide
  constructor
  · unfold resolveErrOf parseStmts
    rw [htoks]
    decide
  · simp only [loxRun, hlex, hperr]
    simp only [ne_eq, not_true_eq_false, if_false, reduceIte]
    unfold parseStmts
    rw [htoks]
    decide

/-- C2 (amended): in `Lox::run`, lexical errors gate parsing and syntactic
errors gate execution exactly as claimed; but no static-resolution pass
runs at all — on a clean scan and parse the pipeline interprets the parsed
statements directly with an empty occurrence-to-depth table, so static
errors do not gate execution. -/
theorem c2_pipeline_gating :
    ∀ (fuel : Nat) (src : String),
      (lexErrors src ≠ [] → loxRun fuel src = .lexFail (lexErrors src)) ∧
      (lexErrors src = [] → parseErrors fuel src ≠ [] →
        loxRun fuel src = .parseFail (parseErrors fuel src)) ∧
      (lexErrors src = [] → parseErrors fuel src = [] →
        loxRun fuel src = interpretProgram fuel (parseStmts fuel src) []) := by
  intro fuel src
  refine ⟨?_, ?_, ?_⟩
  · intro h
    unfold loxRun
    rw [if_pos h]
  · intro h1 h2
    unfold loxRun
    rw [if_neg (by simp [h1]), if_pos h2]
  · intro h1 h2
    unfold loxRun
    rw [if_neg (by simp [h1]), if_neg (by simp [h2])]

/-- C2 witness: concrete runs through each gate — a lexical error (`@`)
stops before parsing, a syntactic error (a bare `;`) stops before
execution, and a clean program reaches interpretation with the empty
table. -/
theorem c2_witness :
    loxRun 1000 "@" = .lexFail (lexErrors "@") ∧
    loxRun 1000 ";" = .parseFail (parseErrors 1000 ";") ∧
    loxRun 1000 "print 1;" =
      interpretProgram 1000 (parseStmts 1000 "print 1;") [] := by
  have h1 : lexErrors "@" ≠ [] := by decide
  have h2a : lexErrors ";" = [] := by decide
  have h2toks : lexTokens ";" =
      [{ kind := .semicolon, lexeme := ";", line := 1 }] := by decide
  have h2b : parseErrors 1000 ";" ≠ [] := by
    unfold parseErrors
    rw [h2toks]
    decide
  have h3a : lexErrors "print 1;" = [] := by decide
  have h3toks : lexTokens "print 1;" =
      [ { kind := .kPrint, lexeme := "print", line := 1 },
        { kind := .number (F64.fin 1), lexeme := "1", line := 1 },
        { kind := .semicolon, lexeme := ";", line := 1 } ] := by decide
  have h3b : parseErrors 1000 "print 1;" = [] := by
    unfold parseErrors
    rw [h3toks]
    decide
  exact ⟨(c2_pipeline_gating 1000 "@").1 h1,
         (c2_pipeline_gating 1000 ";").2.1 h2a h2b,
         (c2_pipeline_gating 1000 "print 1;").2.2 h3a h3b⟩

/-- The source `class B < A {}`. -/
def c4Src : String := "class B < A \x7b\x7d"

/-- The token stream the scanner produces for `c4Src` (proved below). -/
def c4Toks : List Token :=
  [ { kind := .kClass, lexeme := "class", line := 1 },
    { kind := .identifier, lexeme := "B", line := 1 },
    { kind := .less, lexeme := "<", line := 1 },
    { kind := .identifier, lexeme := "A", line := 1 },
    { kind := .leftBrace, lexeme := "\x7b", line := 1 },
    { kind := .rightBrace, lexeme := "\x7d", line := 1 } ]

/-- C4: the parser does not accept a superclass clause.  On
`class B < A {}` the scan is clean, but `class_declaration` consumes the
class name and then demands `{`, reporting the single syntax error at the
`<` token; no Class statement is produced at all (and the source's
`Stmt::new_class(name, methods)` call passes no superclass expression, nor
does any `super` dispatch exist in the interpreter's visitor). -/
theorem c4_superclass_rejected :
    lexErrors c4Src = [] ∧
    lexTokens c4Src = c4Toks ∧
    (parseAll 1000 c4Toks).length = 1 ∧
    (parseAll 1000 c4Toks).filterMap
      (fun r => match r with | .ok _ => none | .error e => some e) =
      [Err.syntactic { kind := .less, lexeme := "<", line := 1 }
        "Expected \x27\x7b\x27 before class body."] := by
  exact ⟨by decide, by decide, by decide, by decide⟩

/-- The spec's Cake program (§8). -/
def cakeSrc : String :=
  "class Cake \x7b init(flavor) \x7b this.flavor = flavor; \x7d " ++
  "taste() \x7b return this.flavor; \x7d \x7d " ++
  "print Cake(\"vanilla\").taste();"

/-- The token stream the scanner produces for `cakeSrc` (proved below):
scanning succeeds, `this` lexing to the `This` keyword token. -/
def cakeToks : List Token :=
  [ { kind := .kClass, lexeme := "class", line := 1 },
    { kind := .identifier, lexeme := "Cake", line := 1 },
    { kind := .leftBrace, lexeme := "\x7b", line := 1 },
    { kind := .identifier, lexeme := "init", line := 1 },
    { kind := .leftParen, lexeme := "(", line := 1 },
    { kind := .identifier, lexeme := "flavor", line := 1 },
    { kind := .rightParen, lexeme := ")", line := 1 },
    { kind := .leftBrace, lexeme := "\x7b", line := 1 },
    { kind := .kThis, lexeme := "this", line := 1 },
    { kind := .dot, lexeme := ".", line := 1 },
    { kind := .identifier, lexeme := "flavor", line := 1 },
    { kind := .equal, lexeme := "=", line := 1 },
    { kind := .identifier, lexeme := "flavor", line := 1 },
    { kind := .semicolon, lexeme := ";", line := 1 },
    { kind := .rightBrace, lexeme := "\x7d", line := 1 },
    { kind := .identifier, lexeme := "taste", line := 1 },
    { kind := .leftParen, lexeme := "(", line := 1 },
    { kind := .rightParen, lexeme := ")", line := 1 },
    { kind := .leftBrace, lexeme := "\x7b", line := 1 },
    { kind := .kReturn, lexeme := "return", line := 1 },
    { kind := .kThis, lexeme := "this", line := 1 },
    { kind := .dot, lexeme := ".", line := 1 },
    { kind := .identifier, lexeme := "flavor", line := 1 },
    { kind := .semicolon, lexeme := ";", line := 1 },
    { kind := .rightBrace, lexeme := "\x7d", line := 1 },
    { kind := .rightBrace, lexeme := "\x7d", line := 1 },
    { kind := .kPrint, lexeme := "print", line := 1 },
    { kind := .identifier, lexeme := "Cake", line := 1 },
    { kind := .leftParen, lexeme := "(", line := 1 },
    { kind := .string "vanilla", lexeme := "\"vanilla\"", line := 1 },
    { kind := .rightParen, lexeme := ")", line := 1 },
    { kind := .dot, lexeme := ".", line := 1 },
    { kind := .identifier, lexeme := "taste", line := 1 },
    { kind := .leftParen, lexeme := "(", line := 1 },
    { kind := .rightParen, lexeme := ")", line := 1 },
    { kind := .semicolon, lexeme := ";", line := 1 } ]

/-- C5: the Cake program is scanned cleanly but rejected by the parser:
`this` is not a `primary` expression in this parser (no `This` arm — the
wildcard yields a syntactic error with an empty message at the `this`
token), so the program never parses, never resolves, never executes and
never prints `vanilla`; `Lox::run` stops at the parse stage. -/
theorem c5_cake_rejected :
    lexErrors cakeSrc = [] ∧
    lexTokens cakeSrc = cakeToks ∧
    (parseErrors 1000 cakeSrc).head? =
      some (Err.syntactic { kind := .kThis, lexeme := "this", line := 1 } "") ∧
    (parseErrors 1000 cakeSrc).length = 3 ∧
    loxRun 1000 cakeSrc = .parseFail (parseErrors 1000 cakeSrc) := by
  have htoks : lexTokens cakeSrc = cakeToks := by decide
  have hlex : lexErrors cakeSrc = [] := by decide
  have hperrN : parseErrors 1000 cakeSrc ≠ [] := by
    unfold parseErrors
    rw [htoks]
    decide
  refine ⟨hlex, htoks, ?_, ?_, ?_⟩
  · unfold parseErrors
    rw [htoks]
    decide
  · unfold parseErrors
    rw [htoks]
    decide
  · unfold loxRun
    rw [if_neg (by simp [hlex]), if_pos hperrN]

/-- C10: the synthetic end-of-file token appended by `scan_tokens` always
carries line 1 — the scanner's line counter is read before the token
stream is consumed, and a fresh scanner starts at line 1 — regardless of
how many newlines the source holds (a three-line source's ordinary tokens
carry lines 1, 2, 3, while its end-of-file token still carries line 1), so
an error rendered "at end" displays `[line 1]` rather than the source's
final line. -/
theorem c10_eof_line_one :
    (∀ src : String,
      (scan_tokens (scannerNew src)).getLast? =
        some (.ok { kind := .endOfFile, lexeme := "", line := 1 })) ∧
    ((scCollect (scannerNew "a\nb\nc")).filterMap
      (fun r => match r with | .ok t => some t | .error _ => none)).map
        Token.line = [1, 2, 3] ∧
    Err.display (Err.syntactic { kind := .endOfFile, lexeme := "", line := 1 }
      "Expected expression.") =
      "[line 1] Error at end: Expected expression." := by
  refine ⟨?_, by decide, by decide⟩
  intro src
  simp only [scan_tokens, scannerNew]
  exact List.getLast?_concat _

/-- The identifier token `m` (a method name). -/
def mTok : Token := { kind := .identifier, lexeme := "m", line := 1 }

/-- A parameterless, empty-bodied method declaration named `m`. -/
def declM : FunDecl := FunDecl.mk mTok [] []

/-- The method `m` as a `Function` value closing over environment 0. -/
def fnM : FunctionV := { declaration := declM, closure := 0, is_init := false }

/-- C3/C6 fixture: class `A` (index 0) whose own table holds method `m`;
class `B` (index 1) with `superclass := A` and an empty own table; one
instance of `B` (index 0). -/
def c3Store : Store :=
  { envs := [ { enclosing := none, values := [] } ],
    classes :=
      [ { name := "A", superclass := none,
          fields := [("m", Value.function fnM)] },
        { name := "B", superclass := some 0, fields := [] } ],
    insts := [ { klass := 1, fields := [] } ] }

/-- C3 counterexample: an instance of `B`, whose stored superclass `A` owns
method `m`, still fails property access for `m` with "Undefined property
m." — `ClassPointer::get_field` never consults the superclass, so the
claimed superclass-chain walk does not happen. -/
theorem c3_counterexample :
    (c3Store.classes.get? 1).map ClassO.superclass = some (some 0) ∧
    class_get_field c3Store 0 "m" = some (Value.function fnM) ∧
    instance_get c3Store 0 mTok =
      .error (Err.runtime mTok "Undefined property m.") := by
  exact ⟨rfl, rfl, rfl⟩

/-- C3 (amended): `InstancePointer::get` yields the instance's own field
when present; otherwise an entry of the instance's class's *own* field
table — no superclass walk — bound to the instance when it is a
`Function`; when both misses, the runtime error "Undefined property
\<name\>.". -/
theorem c3_get_semantics :
    ∀ (store : Store) (i : Nat) (name : Token) (io : InstanceO),
      store.insts.get? i = some io →
      ((∀ v, alistGet io.fields name.lexeme = some v →
          instance_get store i name = .ok (v, store)) ∧
       (∀ m, alistGet io.fields name.lexeme = none →
          class_get_field store io.klass name.lexeme =
            some (Value.function m) →
          instance_get store i name =
            .ok (Value.function (binding store m i).1, (binding store m i).2)) ∧
       (alistGet io.fields name.lexeme = none →
        class_get_field store io.klass name.lexeme = none →
        instance_get store i name =
          .error (Err.runtime name
            ("Undefined property " ++ name.lexeme ++ ".")))) := by
  intro store i name io hio
  refine ⟨?_, ?_, ?_⟩
  · intro v hv
    unfold instance_get
    simp only [hio, hv]
  · intro m h1 h2
    unfold instance_get
    simp only [hio, h1, h2]
  · intro h1 h2
    unfold instance_get
    simp only [hio, h1, h2]

/-- The identifier token `f` (a field name). -/
def fTok : Token := { kind := .identifier, lexeme := "f", line := 1 }

/-- A store holding one instance with an own field `f`. -/
def c3WStore : Store :=
  { envs := [], classes := [],
    insts := [ { klass := 0, fields := [("f", Value.nil)] } ] }

/-- C3 witness: the own-field case of `c3_get_semantics` at a concrete
store. -/
theorem c3_witness :
    instance_get c3WStore 0 fTok = .ok (Value.nil, c3WStore) :=
  (c3_get_semantics c3WStore 0 fTok
    { klass := 0, fields := [("f", Value.nil)] } rfl).1 Value.nil rfl

/-- The call frame `Function::call` builds: a child of the closure with the
parameters bound to the arguments. -/
def mkCallEnv (f : FunctionV) (args : List Value) : Env :=
  { enclosing := some f.closure,
    values := (f.declaration.params.zip args).foldl
      (fun acc pa => alistPut acc pa.1.lexeme pa.2) [] }

/-- Unfolding equation for `Function::call` at positive fuel. -/
theorem iCallFunction_eq (fuel : Nat) (f : FunctionV) (args : List Value)
    (st : IState) :
    iCallFunction (fuel + 1) f args st =
      match iExecBlock fuel f.declaration.body (mkCallEnv f args) st with
      | .ok _ s2 => if f.is_init then this_value f s2 else .ok Value.nil s2
      | .thrown (.ret v) s2 =>
          if f.is_init then this_value f s2 else .ok v s2
      | .thrown (.errT e) s2 => .thrown (.errT e) s2
      | .panic => .panic
      | .fuelOut => .fuelOut := rfl

/-- Unfolding equation for `ClassPointer::call` at positive fuel. -/
theorem iCallClass_eq (fuel : Nat) (c : Nat) (args : List Value)
    (st : IState) :
    iCallClass (fuel + 1) c args st =
      match class_get_field (instantiate st.store c).2 c "init" with
      | some (Value.function init) =>
          match iCallFunction fuel
              (binding (instantiate st.store c).2 init
                (instantiate st.store c).1).1 args
              { st with store :=
                  (binding (instantiate st.store c).2 init
                    (instantiate st.store c).1).2 } with
          | .ok _ s4 => .ok (Value.inst (instantiate st.store c).1) s4
          | .thrown t s4 => .thrown t s4
          | .panic => .panic
          | .fuelOut => .fuelOut
      | _ =>
          .ok (Value.inst (instantiate st.store c).1)
            { st with store := (instantiate st.store c).2 } := rfl

/-- A class call with no own `Function`-valued `init` entry yields the
fresh instance immediately, with no initializer invocation. -/
theorem class_call_no_own_init :
    ∀ (fuel : Nat) (c : Nat) (args : List Value) (st : IState),
      (∀ f, class_get_field (instantiate st.store c).2 c "init" ≠
        some (Value.function f)) →
      iCallClass (fuel + 1) c args st =
        .ok (Value.inst (instantiate st.store c).1)
          ({ st with store := (instantiate st.store c).2 }) := by
  intro fuel c args st h
  rw [iCallClass_eq]
  rcases hg : class_get_field (instantiate st.store c).2 c "init" with _ | v
  · simp only [hg]
  · cases v with
    | function f => exact absurd hg (h f)
    | bool b => simp only [hg]
    | classV c2 => simp only [hg]
    | inst i => simp only [hg]
    | nativeFn => simp only [hg]
    | nil => simp only [hg]
    | number n => simp only [hg]
    | string s => simp only [hg]

/-- A class call with an own `Function`-valued `init`: the init is bound to
the fresh instance and called with the class call's arguments; whatever
value that call yields is discarded and the class call yields the fresh
instance; a thrown signal propagates. -/
theorem class_call_own_init :
    ∀ (fuel : Nat) (c : Nat) (args : List Value) (st : IState)
      (init : FunctionV),
      class_get_field (instantiate st.store c).2 c "init" =
        some (Value.function init) →
      (∀ v s4,
        iCallFunction fuel
          (binding (instantiate st.store c).2 init
            (instantiate st.store c).1).1 args
          { st with store :=
              (binding (instantiate st.store c).2 init
                (instantiate st.store c).1).2 } = .ok v s4 →
        iCallClass (fuel + 1) c args st =
          .ok (Value.inst (instantiate st.store c).1) s4) ∧
      (∀ t s4,
        iCallFunction fuel
          (binding (instantiate st.store c).2 init
            (instantiate st.store c).1).1 args
          { st with store :=
              (binding (instantiate st.store c).2 init
                (instantiate st.store c).1).2 } = .thrown t s4 →
        iCallClass (fuel + 1) c args st = .thrown t s4) := by
  intro fuel c args st init hg
  constructor
  · intro v s4 hcall
    rw [iCallClass_eq]
    simp only [hg, hcall]
  · intro t s4 hcall
    rw [iCallClass_eq]
    simp only [hg, hcall]

/-- A successful call to a `Function` flagged as initializer yields the
`this` binding of its closure frame (`this_value`), whether the body
completed normally or returned early. -/
theorem init_call_yields_this :
    ∀ (fuel : Nat) (f : FunctionV) (args : List Value) (st : IState)
      (v : Value) (s2 : IState),
      f.is_init = true →
      iCallFunction (fuel + 1) f args st = .ok v s2 →
      maybe_get_at s2.store f.closure 0 "this" = some v := by
  intro fuel f args st v s2 hinit hcall
  rw [iCallFunction_eq] at hcall
  rcases hblk : iExecBlock fuel f.declaration.body (mkCallEnv f args) st with
    ⟨a, s3⟩ | ⟨t, s3⟩ | _ | _ <;> rw [hblk] at hcall
  · rw [hinit] at hcall
    simp only [if_true] at hcall
    unfold this_value at hcall
    rcases hm : maybe_get_at s3.store f.closure 0 "this" with _ | v2 <;>
      rw [hm] at hcall
    · exact Step.noConfusion hcall
    · cases hcall
      exact hm
  · cases t with
    | ret rv =>
        rw [hinit] at hcall
        simp only [if_true] at hcall
        unfold this_value at hcall
        rcases hm : maybe_get_at s3.store f.closure 0 "this" with _ | v2 <;>
          rw [hm] at hcall
        · exact Step.noConfusion hcall
        · cases hcall
          exact hm
    | errT e => exact Step.noConfusion hcall
  · exact Step.noConfusion hcall
  · exact Step.noConfusion hcall

/-- `Function::binding` installs `this ↦ the instance` at distance 0 of the
bound function's closure. -/
theorem binding_binds_this :
    ∀ (store : Store) (m : FunctionV) (i : Nat),
      maybe_get_at (binding store m i).2 ((binding store m i).1).closure 0
        "this" = some (Value.inst i) := by
  intro store m i
  unfold binding allocEnv maybe_get_at
  simp only [List.get?_concat_length, Option.bind]
  rfl

/-- C6 (amended): calling a Class creates a fresh Instance; when the
class's *own* table holds an `init` `Function` (inherited initializers are
never found, since lookup does not consult the superclass) it is invoked
bound to the new instance with the call's arguments, any value it yields
is discarded and the call yields the new instance (errors propagate); a
class with no own init yields the fresh instance with no initializer run;
and every successful call to a Function flagged as initializer yields its
closure's `this` binding — which `binding` set to the bound instance. -/
theorem c6_class_call :
    (∀ (fuel : Nat) (c : Nat) (args : List Value) (st : IState),
      (∀ f, class_get_field (instantiate st.store c).2 c "init" ≠
        some (Value.function f)) →
      iCallClass (fuel + 1) c args st =
        .ok (Value.inst (instantiate st.store c).1)
          ({ st with store := (instantiate st.store c).2 })) ∧
    (∀ (fuel : Nat) (c : Nat) (args : List Value) (st : IState)
      (init : FunctionV),
      class_get_field (instantiate st.store c).2 c "init" =
        some (Value.function init) →
      (∀ v s4,
        iCallFunction fuel
          (binding (instantiate st.store c).2 init
            (instantiate st.store c).1).1 args
          { st with store :=
              (binding (instantiate st.store c).2 init
                (instantiate st.store c).1).2 } = .ok v s4 →
        iCallClass (fuel + 1) c args st =
          .ok (Value.inst (instantiate st.store c).1) s4) ∧
      (∀ t s4,
        iCallFunction fuel
          (binding (instantiate st.store c).2 init
            (instantiate st.store c).1).1 args
          { st with store :=
              (binding (instantiate st.store c).2 init
                (instantiate st.store c).1).2 } = .thrown t s4 →
        iCallClass (fuel + 1) c args st = .thrown t s4)) ∧
    (∀ (fuel : Nat) (f : FunctionV) (args : List Value) (st : IState)
      (v : Value) (s2 : IState),
      f.is_init = true →
      iCallFunction (fuel + 1) f args st = .ok v s2 →
      maybe_get_at s2.store f.closure 0 "this" = some v) ∧
    (∀ (store : Store) (m : FunctionV) (i : Nat),
      maybe_get_at (binding store m i).2 ((binding store m i).1).closure 0
        "this" = some (Value.inst i)) :=
  ⟨class_call_no_own_init, class_call_own_init, init_call_yields_this,
   binding_binds_this⟩

/-- The parameter token `p`. -/
def tokP : Token := { kind := .identifier, lexeme := "p", line := 1 }

/-- The property token `flavor`. -/
def tokFlavor : Token := { kind := .identifier, lexeme := "flavor", line := 1 }

/-- The `this` keyword token. -/
def thisTokC6 : Token := { kind := .kThis, lexeme := "this", line := 1 }

/-- The `return` keyword token. -/
def retTok : Token := { kind := .kReturn, lexeme := "return", line := 1 }

/-- `init(p) { this.flavor = p; return 99; }`: sets a field on the bound
instance, then returns early with an explicit value (which initializer
semantics must discard). -/
def c6InitDecl : FunDecl :=
  FunDecl.mk { kind := .identifier, lexeme := "init", line := 1 } [tokP]
    [ Stmt.expression
        (Expr.set (Expr.thisE thisTokC6) tokFlavor (Expr.var tokP)),
      Stmt.returnS retTok
        (some (Expr.literal (Literal.number (F64.fin 99)))) ]

/-- The initializer as a `Function` value (flagged `is_init`). -/
def c6Init : FunctionV :=
  { declaration := c6InitDecl, closure := 0, is_init := true }

/-- C6 fixture: class `A` (index 0) with an own one-parameter `init`;
class `B` (index 1) with `superclass := A` and an empty own table. -/
def c6Store : Store :=
  { envs := [ { enclosing := none, values := [] } ],
    classes :=
      [ { name := "A", superclass := none,
          fields := [("init", Value.function c6Init)] },
        { name := "B", superclass := some 0, fields := [] } ],
    insts := [] }

/-- Interpreter state over `c6Store` with the resolution entries the
resolver would record inside a method body: `this` one frame up from the
call frame, the parameter `p` in the call frame. -/
def c6StateA : IState :=
  { store := c6Store, globals := 0, env := 0,
    locals := [(Expr.thisE thisTokC6, 1), (Expr.var tokP, 0)],
    output := [] }

/-- Interpreter state over `c6Store` with an empty resolution table. -/
def c6StateB : IState :=
  { store := c6Store, globals := 0, env := 0, locals := [], output := [] }

/-- Calling class `B` (no own init; the superclass's init takes one
argument) with no arguments. -/
def c6CallB : Step Value := iCallClass 1000 1 [] c6StateB

/-- Calling class `A` (own init) with one argument. -/
def c6CallA : Step Value := iCallClass 1000 0 [Value.string "vanilla"] c6StateA

/-- The field map of the instance a class call produced. -/
def stepInstFields : Step Value → Option (List (String × Value))
  | .ok (Value.inst i) s => (s.store.insts.get? i).map InstanceO.fields
  | _ => none

/-- Whether a class call yielded instance 0. -/
def stepIsInst0 : Step Value → Bool
  | .ok (Value.inst 0) _ => true
  | _ => false

/-- C6 counterexample: class `B` inherits `A`, whose `init` takes one
parameter and sets `this.flavor`; the claim says that inherited init is
invoked with the call's arguments.  In the code, `B`'s arity is 0 (not the
inherited 1), `B()` yields a fresh instance whose field map stays empty —
the inherited initializer is never found, let alone invoked. -/
theorem c6_counterexample :
    class_arity c6Store 1 = 0 ∧
    class_get_field c6Store 0 "init" = some (Value.function c6Init) ∧
    c6Init.declaration.params.length = 1 ∧
    (c6Store.classes.get? 1).map ClassO.superclass = some (some 0) ∧
    stepIsInst0 c6CallB = true ∧
    stepInstFields c6CallB = some [] := by
  exact ⟨rfl, rfl, rfl, rfl, rfl, rfl⟩

/-- C6 witness: the no-own-init clause of `c6_class_call` applied to the
concrete class `B`; and, concretely for class `A`, the own init runs bound
to the new instance — it sets `flavor` to the call argument — while its
early `return 99;` is discarded and the call yields instance 0. -/
theorem c6_witness :
    iCallClass 1001 1 [] c6StateB =
      .ok (Value.inst 0)
        ({ c6StateB with store := (instantiate c6Store 1).2 }) ∧
    stepIsInst0 c6CallA = true ∧
    stepInstFields c6CallA = some [("flavor", Value.string "vanilla")] := by
  refine ⟨?_, rfl, rfl⟩
  exact c6_class_call.1 1000 1 [] c6StateB
    (by
      intro f h
      rw [show class_get_field (instantiate c6StateB.store 1).2 1 "init" =
        none from rfl] at h
      exact Option.noConfusion h)

/-- Whether a binary dispatch produced a value. -/
def BinRes.isOk : BinRes → Bool
  | .okB _ => true
  | _ => false

/-- `compute_if_numbers` fails with "Operands must be numbers." exactly
when an operand is not a Number. -/
theorem compute_if_numbers_err :
    ∀ (op : Token) (l r : Value) (f : F64 → F64 → Value),
      (compute_if_numbers op l r f =
          .errB (Err.runtime op "Operands must be numbers.") ↔
        ¬(l.isNumber = true ∧ r.isNumber = true)) := by
  intro op l r f
  cases l <;> cases r <;>
    simp [compute_if_numbers, Value.isNumber]

/-- C8: for `-`, `*`, `/`, `>`, `>=`, `<`, `<=` the dispatch fails with
the runtime error "Operands must be numbers." iff at least one operand is
not a Number; for `+` it succeeds iff both operands are Numbers or both
are Strings, failing otherwise with "Operands must be two numbers or two
strings.". -/
theorem c8_binary_typing :
    ∀ (op : Token) (l r : Value),
      ((op.kind = .minus ∨ op.kind = .star ∨ op.kind = .slash ∨
        op.kind = .greater ∨ op.kind = .greaterEqual ∨ op.kind = .less ∨
        op.kind = .lessEqual) →
        (binary_dispatch op l r =
            .errB (Err.runtime op "Operands must be numbers.") ↔
          ¬(l.isNumber = true ∧ r.isNumber = true))) ∧
      (op.kind = .plus →
        (((binary_dispatch op l r).isOk = true) ↔
          ((l.isNumber = true ∧ r.isNumber = true) ∨
           (l.isString = true ∧ r.isString = true))) ∧
        (¬((l.isNumber = true ∧ r.isNumber = true) ∨
           (l.isString = true ∧ r.isString = true)) →
          binary_dispatch op l r =
            .errB (Err.runtime op
              "Operands must be two numbers or two strings."))) := by
  intro op l r
  constructor
  · intro hk
    rcases hk with h | h | h | h | h | h | h <;>
      · simp only [binary_dispatch, h]
        exact compute_if_numbers_err op l r _
  · intro hk
    constructor
    · simp only [binary_dispatch, hk]
      cases l <;> cases r <;>
        simp [BinRes.isOk, Value.isNumber, Value.isString]
    · intro hno
      simp only [binary_dispatch, hk]
      cases l <;> cases r <;>
        simp_all [Value.isNumber, Value.isString]

/-- The `-` operator token. -/
def minusTok : Token := { kind := .minus, lexeme := "-", line := 1 }

/-- The `+` operator token. -/
def plusTok : Token := { kind := .plus, lexeme := "+", line := 1 }

/-- C8 witness: `"a" - nil` is the numbers error, `1 + 2` succeeds, and
`1 + "x"` is the two-numbers-or-two-strings error. -/
theorem c8_witness :
    binary_dispatch minusTok (Value.string "a") Value.nil =
      .errB (Err.runtime minusTok "Operands must be numbers.") ∧
    (binary_dispatch plusTok (Value.number (F64.fin 1))
      (Value.number (F64.fin 2))).isOk = true ∧
    binary_dispatch plusTok (Value.number (F64.fin 1)) (Value.string "x") =
      .errB (Err.runtime plusTok
        "Operands must be two numbers or two strings.") := by
  refine ⟨?_, ?_, ?_⟩
  · exact ((c8_binary_typing minusTok (Value.string "a") Value.nil).1
      (Or.inl rfl)).mpr (by decide)
  · exact ((c8_binary_typing plusTok (Value.number (F64.fin 1))
      (Value.number (F64.fin 2))).2 rfl).1.mpr (Or.inl ⟨rfl, rfl⟩)
  · exact ((c8_binary_typing plusTok (Value.number (F64.fin 1))
      (Value.string "x")).2 rfl).2 (by decide)

/-- C9: `==` implements `Value::is_equal` — Nil equals Nil, Bools and
Strings compare by content, Numbers compare numerically except that two
NaNs compare equal (diverging from IEEE, whose `==` on NaN is false) — and
`!=` dispatches to exactly the boolean negation of `==` for every pair of
values; in particular `NaN == NaN` evaluates to `true` and `NaN != NaN` to
`false`. -/
theorem c9_equality :
    ∀ (eqTok neTok : Token) (v1 v2 : Value) (n1 n2 : F64)
      (b1 b2 : Bool) (s1 s2 : String),
      eqTok.kind = .equalEqual → neTok.kind = .bangEqual →
      (Value.is_equal .nil .nil = true) ∧
      (Value.is_equal (.bool b1) (.bool b2) = (b1 == b2)) ∧
      (Value.is_equal (.string s1) (.string s2) = (s1 == s2)) ∧
      (n1.is_nan = true → n2.is_nan = true →
        Value.is_equal (.number n1) (.number n2) = true) ∧
      (¬(n1.is_nan = true ∧ n2.is_nan = true) →
        Value.is_equal (.number n1) (.number n2) = F64.ieeeEq n1 n2) ∧
      (F64.ieeeEq .nan .nan = false) ∧
      (binary_dispatch eqTok (.number .nan) (.number .nan) =
        .okB (.bool true)) ∧
      (binary_dispatch neTok (.number .nan) (.number .nan) =
        .okB (.bool false)) ∧
      (binary_dispatch neTok v1 v2 =
        .okB (.bool (!(v1.is_equal v2)))) ∧
      (binary_dispatch eqTok v1 v2 = .okB (.bool (v1.is_equal v2))) := by
  intro eqTok neTok v1 v2 n1 n2 b1 b2 s1 s2 heq hne
  refine ⟨rfl, rfl, rfl, ?_, ?_, rfl, ?_, ?_, ?_, ?_⟩
  · intro h1 h2
    simp only [Value.is_equal, h1, h2]
    rfl
  · intro h
    cases n1 <;> cases n2 <;> simp_all [Value.is_equal, F64.is_nan]
  · simp only [binary_dispatch, heq]
    rfl
  · simp only [binary_dispatch, hne]
    rfl
  · simp only [binary_dispatch, hne]
  · simp only [binary_dispatch, heq]

/-- The `==` operator token. -/
def eqTokW : Token := { kind := .equalEqual, lexeme := "==", line := 1 }

/-- The `!=` operator token. -/
def neTokW : Token := { kind := .bangEqual, lexeme := "!=", line := 1 }

/-- C9 witness: the NaN clauses and the non-NaN numeric clause of
`c9_equality` at concrete inputs. -/
theorem c9_witness :
    Value.is_equal (.number F64.nan) (.number F64.nan) = true ∧
    binary_dispatch eqTokW (.number F64.nan) (.number F64.nan) =
      .okB (.bool true) ∧
    binary_dispatch neTokW (.number F64.nan) (.number F64.nan) =
      .okB (.bool false) ∧
    Value.is_equal (.number (F64.fin 1)) (.number (F64.fin 1)) =
      F64.ieeeEq (F64.fin 1) (F64.fin 1) := by
  have h := c9_equality eqTokW neTokW Value.nil Value.nil F64.nan F64.nan
    true true "" "" rfl rfl
  have h2 := c9_equality eqTokW neTokW Value.nil Value.nil (F64.fin 1)
    (F64.fin 1) true true "" "" rfl rfl
  exact ⟨h.2.2.2.1 rfl rfl, h.2.2.2.2.2.2.1, h.2.2.2.2.2.2.2.1,
    h2.2.2.2.2.1 (by simp [F64.is_nan])⟩
